import Mathlib

/-!
# Enumeration core of azure-storage-azcopy (`cmd/zc_enumerator.go`)

A shallow embedding of the generic enumerators, the filter helpers and the
traverser factory, with the properties of the written specification stated and
proved over it.

Conventions of the embedding

* A Go `error` is `Option String`: `none` is `nil`, `some msg` a non-nil error.
* Side effects are explicit state passing over a `World σ`: the messages handed
  to the lifecycle manager `glcm`, the `sync.Once` guarding the HTTP notice, and
  an arbitrary external part `ext : σ` (backends, indexer map, test records).
* A Go slice is `Option (List α)`: `none` is the nil slice.
* A nil-able pointer or interface value is an `Option`.
* Functions defined outside `zc_enumerator.go` are taken as
  parameters (`Deps`), or modelled from the specification where a property is
  about them; in that case the doc comment says so.
-/

namespace AzCopy

/-! ## Basic types -/

/-- Go `error`: `none` is `nil`. -/
abbrev error := Option String

/-- A Go slice: `none` is the nil slice, `some xs` a non-nil slice with elements `xs`. -/
abbrev slice (α : Type) := Option (List α)

/-- The elements a `range` loop over the slice visits, in order (none for a nil slice). -/
def slice.elems {α : Type} : slice α → List α
  | none => []
  | some xs => xs

/-- Go `len` of a slice (0 for the nil slice). -/
def slice.len {α : Type} (s : slice α) : Nat := s.elems.length

/-- The record `storedObject` of `zc_enumerator.go`; `time.Time` is an instant counted
in nanoseconds, `[]byte` a list of byte values, the azblob string enums are strings and
`common.Metadata` is an association list. -/
structure storedObject where
  name : String
  lastModifiedTime : Int
  size : Int
  md5 : List Nat
  blobType : String
  contentDisposition : String
  cacheControl : String
  contentLanguage : String
  contentEncoding : String
  contentType : String
  relativePath : String
  containerName : String
  dstContainerName : String
  blobAccessTier : String
  Metadata : List (String × String)
  deriving DecidableEq, Repr

/-- A message received by the lifecycle manager `glcm`. -/
inductive glcmMessage where
  | Info (msg : String)
  | Error (msg : String)
  deriving DecidableEq, Repr

/-- The mutable state the enumeration code acts on. -/
structure World (σ : Type) where
  /-- messages handed to `glcm`, oldest first -/
  glcmOutput : List glcmMessage
  /-- the `sync.Once` named `httpsRecommendationOnce`: true once its `Do` has run -/
  httpsRecommendationOnce : Bool
  /-- state of everything outside this file -/
  ext : σ

/-- Modelled from the spec: `glcm.Error` (the lifecycle manager is defined outside
`zc_enumerator.go`) reports the message to the operator and returns; section 7 of the
specification says an unsupported filter "is reported to the operator but does not itself abort
enumeration". -/
def glcm_Error {σ : Type} (msg : String) (w : World σ) : World σ :=
  { w with glcmOutput := w.glcmOutput ++ [glcmMessage.Error msg] }

/-- Modelled from the spec: `glcm.Info` (the lifecycle manager is defined outside
`zc_enumerator.go`) emits an advisory notice to the operator and returns. -/
def glcm_Info {σ : Type} (msg : String) (w : World σ) : World σ :=
  { w with glcmOutput := w.glcmOutput ++ [glcmMessage.Info msg] }

/-- Go `type objectProcessor func(storedObject storedObject) error`: a call may change the
world and returns an error. -/
abbrev objectProcessor (σ : Type) := storedObject → World σ → error × World σ

/-- Go `interface objectFilter`. Both methods are predicates of the filter's own
configuration (section 3 of the specification: "capability-polymorphic predicate"), so
they are pure functions here. -/
structure objectFilter where
  doesSupportThisOS : String × Bool
  doesPass : storedObject → Bool

/-- Go `interface resourceTraverser`. -/
structure resourceTraverser (σ : Type) where
  traverse : objectProcessor σ → slice objectFilter → World σ → error × World σ
  isDirectory : Bool → World σ → Bool × World σ

/-- Go `time.Time.After` on instants: `t.After(u)` reports whether `t` is after `u`. -/
def time_After (t u : Int) : Bool := decide (u < t)

/-- Go `(storedObject *storedObject) isMoreRecentThan(storedObject2 storedObject)`; the
receiver is named `object` here. -/
def storedObject.isMoreRecentThan (object storedObject2 : storedObject) : Bool :=
  time_After object.lastModifiedTime storedObject2.lastModifiedTime

/-- Go `newStoredObject`: the fields not listed keep their zero value. -/
def newStoredObject (name relativePath : String) (lmt : Int) (size : Int) (md5 : List Nat)
    (blobType : String) (containerName : String) : storedObject :=
  { name := name, relativePath := relativePath, lastModifiedTime := lmt, size := size,
    md5 := md5, blobType := blobType, containerName := containerName,
    contentDisposition := "", cacheControl := "", contentLanguage := "",
    contentEncoding := "", contentType := "", dstContainerName := "",
    blobAccessTier := "", Metadata := [] }

/-! ## Helper funcs: `passedFilters`, `processIfPassedFilters` -/

/-- The `for _, filter := range filters` loop of `passedFilters`. -/
def passedFiltersLoop {σ : Type} (o : storedObject) :
    List objectFilter → World σ → Bool × World σ
  | [], w => (true, w)
  | filter :: rest, w =>
    let (msg, supported) := filter.doesSupportThisOS
    let w1 := if !supported then glcm_Error msg w else w
    if !filter.doesPass o then (false, w1)
    else passedFiltersLoop o rest w1

/-- Go `passedFilters(filters, storedObject)`. -/
def passedFilters {σ : Type} (filters : slice objectFilter) (o : storedObject)
    (w : World σ) : Bool × World σ :=
  if filters.isSome && filters.len > 0 then
    passedFiltersLoop o filters.elems w
  else
    (true, w)

/-- Go `processIfPassedFilters(filters, storedObject, processor)`; the named result `err`
starts as nil. -/
def processIfPassedFilters {σ : Type} (filters : slice objectFilter) (o : storedObject)
    (processor : objectProcessor σ) (w : World σ) : error × World σ :=
  let (passed, w1) := passedFilters filters o w
  if passed then processor o w1
  else (none, w1)

/-! ## Component definitions -/

/-- Go `initContainerDecorator(containerName, processor)`: the closure receives its
argument by value, overwrites the `containerName` of that copy and hands the copy on. -/
def initContainerDecorator {σ : Type} (containerName : String)
    (processor : objectProcessor σ) : objectProcessor σ :=
  fun object =>
    let object := { object with containerName := containerName }
    processor object

/-- Go `containerNameMatchesPattern(containerName, pattern)`, which is
`filepath.Match(pattern, containerName)`; the standard-library matcher is a parameter. -/
def containerNameMatchesPattern (filepath_Match : String → String → Bool × error)
    (containerName pattern : String) : Bool × error :=
  filepath_Match pattern containerName

/-- Go constant `accountTraversalInherentlyRecursiveError`. -/
def accountTraversalInherentlyRecursiveError : String :=
  "account copies are an inherently recursive operation, and thus --recursive is required"

/-- Go constant `httpsRecommendedNotice`. -/
def httpsRecommendedNotice : String :=
  "NOTE: HTTP is in use for one or more location(s). The use of HTTP is not recommended due to security concerns."

/-- The fields of `net/url.URL` this package reads or forwards. -/
structure URL where
  Scheme : String
  Host : String
  Path : String
  RawQuery : String
  deriving DecidableEq, Repr

/-- Go `strings.EqualFold` on ASCII letters. Its only use compares with `http`, none of
whose letters has a case variant outside ASCII, so there it agrees with Unicode simple
folding. -/
def strings_EqualFold (s t : String) : Bool :=
  s.toList.map Char.toLower == t.toList.map Char.toLower

/-- Go `sync.Once.Do` on `httpsRecommendationOnce`: runs `f` on the first call only. -/
def httpsRecommendationOnce_Do {σ : Type} (f : World σ → World σ) (w : World σ) : World σ :=
  if w.httpsRecommendationOnce then w
  else { f w with httpsRecommendationOnce := true }

/-- Go `recommendHttpsIfNecessary(url)`. -/
def recommendHttpsIfNecessary {σ : Type} (url : URL) (w : World σ) : World σ :=
  if strings_EqualFold url.Scheme "http" then
    httpsRecommendationOnce_Do (glcm_Info httpsRecommendedNotice) w
  else w

/-! ## Generic enumerators -/

/-- The indexer of a sync; of the type (defined outside `zc_enumerator.go`) only the
method value `store` is used by the enumerator. -/
structure objectIndexer (σ : Type) where
  store : objectProcessor σ

/-- Go `struct syncEnumerator`. -/
structure syncEnumerator (σ : Type) where
  primaryTraverser : resourceTraverser σ
  secondaryTraverser : resourceTraverser σ
  objectIndexer : objectIndexer σ
  filters : slice objectFilter
  objectComparator : objectProcessor σ
  finalize : World σ → error × World σ

/-- Go `newSyncEnumerator`. -/
def newSyncEnumerator {σ : Type} (primaryTraverser secondaryTraverser : resourceTraverser σ)
    (indexer : objectIndexer σ) (filters : slice objectFilter)
    (comparator : objectProcessor σ) (finalize : World σ → error × World σ) :
    syncEnumerator σ :=
  { primaryTraverser := primaryTraverser
    secondaryTraverser := secondaryTraverser
    objectIndexer := indexer
    filters := filters
    objectComparator := comparator
    finalize := finalize }

/-- Go `(e *syncEnumerator) enumerate()`. -/
def syncEnumerator.enumerate {σ : Type} (e : syncEnumerator σ) (w : World σ) :
    error × World σ :=
  let (err, w1) := e.primaryTraverser.traverse e.objectIndexer.store e.filters w
  if err != none then (err, w1)
  else
    let (err, w2) := e.secondaryTraverser.traverse e.objectComparator e.filters w1
    if err != none then (err, w2)
    else
      let (err, w3) := e.finalize w2
      if err != none then (err, w3)
      else (err, w3)

/-- Go `struct copyEnumerator`. -/
structure copyEnumerator (σ : Type) where
  traverser : resourceTraverser σ
  filters : slice objectFilter
  objectDispatcher : objectProcessor σ
  finalize : World σ → error × World σ

/-- Go `newCopyEnumerator`. -/
def newCopyEnumerator {σ : Type} (traverser : resourceTraverser σ)
    (filters : slice objectFilter) (objectDispatcher : objectProcessor σ)
    (finalizer : World σ → error × World σ) : copyEnumerator σ :=
  { traverser := traverser
    filters := filters
    objectDispatcher := objectDispatcher
    finalize := finalizer }

/-- Go `(e *copyEnumerator) enumerate()`. -/
def copyEnumerator.enumerate {σ : Type} (e : copyEnumerator σ) (w : World σ) :
    error × World σ :=
  let (err, w1) := e.traverser.traverse e.objectDispatcher e.filters w
  if err != none then (err, w1)
  else e.finalize w1

/-! ## The traverser factory `initResourceTraverser` -/

/-- Go `common.Location`: the six kinds the factory dispatches on, and every other value
of the type. -/
inductive Location where
  | Local
  | Benchmark
  | Blob
  | File
  | BlobFS
  | S3
  | other (code : Nat)
  deriving DecidableEq, Repr

/-- The field of `azblob.BlobURLParts` the factory reads. -/
structure BlobURLParts where
  ContainerName : String

/-- The field of `azfile.FileURLParts` the factory reads. -/
structure FileURLParts where
  ShareName : String

/-- The field of `azbfs.BfsURLParts` the factory reads. -/
structure BfsURLParts where
  FileSystemName : String

/-- The field of `common.S3URLParts` the factory reads. -/
structure S3URLParts where
  BucketName : String

/-- Index of the first occurrence of `substr` in `s`, or -1 (Go `strings.Index`), counted
in characters. -/
def listIndex (substr : List Char) : List Char → Int
  | [] => if substr.isEmpty then 0 else -1
  | c :: rest =>
    if substr.isPrefixOf (c :: rest) then 0
    else
      let i := listIndex substr rest
      if i == -1 then -1 else i + 1

/-- Go `strings.Index(s, substr)`. -/
def strings_Index (s substr : String) : Int := listIndex substr.toList s.toList

/-- Go `strings.Contains(s, substr)`, which is `strings.Index(s, substr) >= 0`. -/
def strings_Contains (s substr : String) : Bool := decide (strings_Index s substr ≥ 0)

/-- Go `strings.TrimPrefix(s, pre)`. -/
def strings_TrimPrefix (s pre : String) : String :=
  if pre.toList.isPrefixOf s.toList then String.mk (s.toList.drop pre.toList.length) else s

/-- The callback `incrementEnumerationCounter func()`. -/
abbrev enumerationCounter (σ : Type) := World σ → World σ

/-- What `initResourceTraverser` calls but does not define: functions of the package kept
in other files, of the storage SDKs and of the standard library. `Ctx`, `Cred`, `Pipe` and
`T` stand for `context.Context`, `common.CredentialInfo`, `pipeline.Pipeline` and the
values of the interface `resourceTraverser`. A constructor's result is an `Option`
because an interface value can be nil. A channel of strings is the list of strings it
delivers. Reads of the environment (`os.Stat`, `filepath.Glob`) are functions of their
argument: the environment is fixed for the duration of one call. -/
structure Deps (σ Ctx Cred Pipe T : Type) where
  cleanLocalPath : String → String
  initPipeline : Ctx → Location → Cred → Pipe × error
  IsRemote : Location → Bool
  SplitAuthTokenFromResource : String → Location → String × String × error
  newListTraverser : String → String → Location → Option Cred → Option Ctx → Bool → Bool →
    List String → enumerationCounter σ → Option T
  os_Stat : String → error
  getPathBeforeFirstWildcard : String → String
  filepath_Glob : String → List String × error
  newLocalTraverser : String → Bool → Bool → enumerationCounter σ → Option T
  newBenchmarkTraverser : String → enumerationCounter σ → Option T × error
  url_Parse : String → Option URL × error
  NewBlobURLParts : URL → BlobURLParts
  NewFileURLParts : URL → FileURLParts
  NewBfsURLParts : URL → BfsURLParts
  NewS3URLParts : URL → S3URLParts × error
  newBlobAccountTraverser : URL → Pipe → Ctx → enumerationCounter σ → Option T
  newBlobTraverser : URL → Pipe → Ctx → Bool → enumerationCounter σ → Option T
  newFileAccountTraverser : URL → Pipe → Ctx → enumerationCounter σ → Option T
  newFileTraverser : URL → Pipe → Ctx → Bool → enumerationCounter σ → Option T
  newBlobFSAccountTraverser : URL → Pipe → Ctx → enumerationCounter σ → Option T
  newBlobFSTraverser : URL → Pipe → Ctx → Bool → enumerationCounter σ → Option T
  newS3ServiceTraverser : URL → Ctx → enumerationCounter σ → Option T × error
  newS3Traverser : URL → Ctx → Bool → enumerationCounter σ → Option T × error

/-- How a call of `initResourceTraverser` ends: it returns `(output, err)` or panics. -/
inductive Outcome (T : Type) where
  | returned (output : Option T) (err : error)
  | panicked (msg : String)
  deriving DecidableEq, Repr

/-- The message of the panic that ends `initResourceTraverser` on a nil `output`. -/
def sanityCheckPanic : String := "sanity check: somehow didn't spawn a traverser"

/-- The end of `initResourceTraverser`, reached when the `switch` falls through:
`if output == nil { panic(...) }; return output, nil`. -/
def sanityCheck {T : Type} (output : Option T) : Outcome T :=
  if output.isNone then Outcome.panicked sanityCheckPanic
  else Outcome.returned output none

/-- Dereferencing the `*url.URL` that `url.Parse` returned with a nil error. -/
def nilDereference {T : Type} : Outcome T :=
  Outcome.panicked "invalid memory address or nil pointer dereference"

section factory

variable {σ Ctx Cred Pipe T : Type}

/-- The block `if ctx != nil && credential != nil { tmppipe, err := initPipeline(...) ... }`:
the pipeline pointer `p` (nil when the block is skipped) and the error that makes the
factory return. -/
def pipelineIfProvided (d : Deps σ Ctx Cred Pipe T) (location : Location)
    (ctx : Option Ctx) (credential : Option Cred) : Option Pipe × error :=
  match ctx, credential with
  | some c, some cred =>
    match d.initPipeline c location cred with
    | (_, some err) => (none, some err)
    | (tmppipe, none) => (some tmppipe, none)
  | _, _ => (none, none)

/-- The block `if listofFilesChannel != nil { ... return output, nil }`. -/
def initFromList (d : Deps σ Ctx Cred Pipe T) (resource : String) (location : Location)
    (ctx : Option Ctx) (credential : Option Cred) (recursive toFollow : Bool)
    (listofFilesChannel : List String) (incrementEnumerationCounter : enumerationCounter σ) :
    Outcome T :=
  if d.IsRemote location then
    match d.SplitAuthTokenFromResource resource location with
    | (_, _, some err) => Outcome.returned none (some err)
    | (resource, sas, none) =>
      Outcome.returned (d.newListTraverser resource sas location credential ctx recursive
        toFollow listofFilesChannel incrementEnumerationCounter) none
  else
    Outcome.returned (d.newListTraverser resource "" location credential ctx recursive
      toFollow listofFilesChannel incrementEnumerationCounter) none

/-- The arm `case common.ELocation.Local()`. The goroutine feeding `globChan` is the list
of the trimmed matches. -/
def initLocal (d : Deps σ Ctx Cred Pipe T) (resource : String) (location : Location)
    (recursive toFollow : Bool) (incrementEnumerationCounter : enumerationCounter σ) :
    Outcome T :=
  let err := d.os_Stat resource
  if strings_Index resource "*" != -1 && err != none then
    let basePath := d.getPathBeforeFirstWildcard resource
    match d.filepath_Glob resource with
    | (_, some err) => Outcome.returned none (some ("failed to glob: " ++ err))
    | (found, none) =>
      let globChan := found.map (fun v => strings_TrimPrefix v basePath)
      sanityCheck (d.newListTraverser (d.cleanLocalPath basePath) "" location none none
        recursive toFollow globChan incrementEnumerationCounter)
  else
    sanityCheck (d.newLocalTraverser resource recursive toFollow incrementEnumerationCounter)

/-- The arm `case common.ELocation.Benchmark()`. -/
def initBenchmark (d : Deps σ Ctx Cred Pipe T) (resource : String)
    (incrementEnumerationCounter : enumerationCounter σ) : Outcome T :=
  match d.newBenchmarkTraverser resource incrementEnumerationCounter with
  | (_, some err) => Outcome.returned none (some err)
  | (ben, none) => sanityCheck ben

/-- The arm `case common.ELocation.Blob()`. -/
def initBlob (d : Deps σ Ctx Cred Pipe T) (resource : String) (ctx : Option Ctx)
    (p : Option Pipe) (recursive : Bool) (incrementEnumerationCounter : enumerationCounter σ)
    (w : World σ) : Outcome T × World σ :=
  match d.url_Parse resource with
  | (_, some err) => (Outcome.returned none (some err), w)
  | (none, none) => (nilDereference, w)
  | (some resourceURL, none) =>
    let w := recommendHttpsIfNecessary resourceURL w
    match ctx, p with
    | some ctx, some p =>
      let burl := d.NewBlobURLParts resourceURL
      if burl.ContainerName == "" || strings_Contains burl.ContainerName "*" then
        if !recursive then
          (Outcome.returned none (some accountTraversalInherentlyRecursiveError), w)
        else
          (sanityCheck (d.newBlobAccountTraverser resourceURL p ctx
            incrementEnumerationCounter), w)
      else
        (sanityCheck (d.newBlobTraverser resourceURL p ctx recursive
          incrementEnumerationCounter), w)
    | _, _ =>
      (Outcome.returned none
        (some "a valid credential and context must be supplied to create a blob traverser"), w)

/-- The arm `case common.ELocation.File()`. -/
def initFile (d : Deps σ Ctx Cred Pipe T) (resource : String) (ctx : Option Ctx)
    (p : Option Pipe) (recursive : Bool) (incrementEnumerationCounter : enumerationCounter σ)
    (w : World σ) : Outcome T × World σ :=
  match d.url_Parse resource with
  | (_, some err) => (Outcome.returned none (some err), w)
  | (none, none) => (nilDereference, w)
  | (some resourceURL, none) =>
    let w := recommendHttpsIfNecessary resourceURL w
    match ctx, p with
    | some ctx, some p =>
      let furl := d.NewFileURLParts resourceURL
      if furl.ShareName == "" || strings_Contains furl.ShareName "*" then
        if !recursive then
          (Outcome.returned none (some accountTraversalInherentlyRecursiveError), w)
        else
          (sanityCheck (d.newFileAccountTraverser resourceURL p ctx
            incrementEnumerationCounter), w)
      else
        (sanityCheck (d.newFileTraverser resourceURL p ctx recursive
          incrementEnumerationCounter), w)
    | _, _ =>
      (Outcome.returned none
        (some "a valid credential and context must be supplied to create a file traverser"), w)

/-- The arm `case common.ELocation.BlobFS()`; here the nil checks come before the notice. -/
def initBlobFS (d : Deps σ Ctx Cred Pipe T) (resource : String) (ctx : Option Ctx)
    (credential : Option Cred) (p : Option Pipe) (recursive : Bool)
    (incrementEnumerationCounter : enumerationCounter σ) (w : World σ) :
    Outcome T × World σ :=
  match d.url_Parse resource with
  | (_, some err) => (Outcome.returned none (some err), w)
  | (resourceURL, none) =>
    match ctx, p, credential with
    | some ctx, some p, some _ =>
      match resourceURL with
      | none => (nilDereference, w)
      | some resourceURL =>
        let w := recommendHttpsIfNecessary resourceURL w
        let bfsURL := d.NewBfsURLParts resourceURL
        if bfsURL.FileSystemName == "" || strings_Contains bfsURL.FileSystemName "*" then
          if !recursive then
            (Outcome.returned none (some accountTraversalInherentlyRecursiveError), w)
          else
            (sanityCheck (d.newBlobFSAccountTraverser resourceURL p ctx
              incrementEnumerationCounter), w)
        else
          (sanityCheck (d.newBlobFSTraverser resourceURL p ctx recursive
            incrementEnumerationCounter), w)
    | _, _, _ =>
      (Outcome.returned none
        (some "a valid credential and context must be supplied to create a blobFS traverser"), w)

/-- The arm `case common.ELocation.S3()`. -/
def initS3 (d : Deps σ Ctx Cred Pipe T) (resource : String) (ctx : Option Ctx)
    (recursive : Bool) (incrementEnumerationCounter : enumerationCounter σ)
    (w : World σ) : Outcome T × World σ :=
  match d.url_Parse resource with
  | (_, some err) => (Outcome.returned none (some err), w)
  | (none, none) => (nilDereference, w)
  | (some resourceURL, none) =>
    let w := recommendHttpsIfNecessary resourceURL w
    match d.NewS3URLParts resourceURL with
    | (_, some err) => (Outcome.returned none (some err), w)
    | (s3URLParts, none) =>
      match ctx with
      | none =>
        (Outcome.returned none
          (some "a valid context must be supplied to create a S3 traverser"), w)
      | some ctx =>
        if s3URLParts.BucketName == "" || strings_Contains s3URLParts.BucketName "*" then
          if !recursive then
            (Outcome.returned none (some accountTraversalInherentlyRecursiveError), w)
          else
            match d.newS3ServiceTraverser resourceURL ctx incrementEnumerationCounter with
            | (_, some err) => (Outcome.returned none (some err), w)
            | (output, none) => (sanityCheck output, w)
        else
          match d.newS3Traverser resourceURL ctx recursive incrementEnumerationCounter with
          | (_, some err) => (Outcome.returned none (some err), w)
          | (output, none) => (sanityCheck output, w)

/-- Go `initResourceTraverser(resource, location, ctx, credential, followSymlinks,
listofFilesChannel, recursive, incrementEnumerationCounter)`. -/
def initResourceTraverser (d : Deps σ Ctx Cred Pipe T) (resource : String)
    (location : Location) (ctx : Option Ctx) (credential : Option Cred)
    (followSymlinks : Option Bool) (listofFilesChannel : Option (List String))
    (recursive : Bool) (incrementEnumerationCounter : enumerationCounter σ)
    (w : World σ) : Outcome T × World σ :=
  let resource := if location = Location.Local then d.cleanLocalPath resource else resource
  match pipelineIfProvided d location ctx credential with
  | (_, some err) => (Outcome.returned none (some err), w)
  | (p, none) =>
    let toFollow := match followSymlinks with
      | some b => b
      | none => false
    match listofFilesChannel with
    | some ch =>
      (initFromList d resource location ctx credential recursive toFollow ch
        incrementEnumerationCounter, w)
    | none =>
      match location with
      | Location.Local =>
        (initLocal d resource location recursive toFollow incrementEnumerationCounter, w)
      | Location.Benchmark => (initBenchmark d resource incrementEnumerationCounter, w)
      | Location.Blob => initBlob d resource ctx p recursive incrementEnumerationCounter w
      | Location.File => initFile d resource ctx p recursive incrementEnumerationCounter w
      | Location.BlobFS =>
        initBlobFS d resource ctx credential p recursive incrementEnumerationCounter w
      | Location.S3 => initS3 d resource ctx recursive incrementEnumerationCounter w
      | Location.other _ =>
        (Outcome.returned none
          (some "could not choose a traverser from currently available traversers"), w)

end factory

/-! ## Account traversers -/

section account

variable {σ : Type}

/-- Modelled from the spec: the `traverse` of a single-container traverser (the backend
traversers are defined outside `zc_enumerator.go`). Section 4.2: "for every native entry,
build a StoredObject, then call processIfPassedFilters(filters, object, processor)", and
"traverse returns the first hard error encountered ... and halts further enumeration".
`entries` are the objects the native listing of the container yields, in order. -/
def containerTraverse (processor : objectProcessor σ) (filters : slice objectFilter) :
    List storedObject → World σ → error × World σ
  | [], w => (none, w)
  | object :: rest, w =>
    let (err, w1) := processIfPassedFilters filters object processor w
    if err != none then (err, w1)
    else containerTraverse processor filters rest w1

/-- Modelled from the spec: a single-container traverser over the given native listing
(the backend traversers are defined outside `zc_enumerator.go`); a container is a
directory. -/
def newContainerTraverser (entries : List storedObject) : resourceTraverser σ :=
  { traverse := fun processor filters w => containerTraverse processor filters entries w
    isDirectory := fun _ w => (true, w) }

/-- Modelled from the spec: `listContainers` of an account traverser (declared in the
interface `accountTraverser`, implemented outside `zc_enumerator.go`). Section 4.2: it
"lists containers at the account scope, filters container names by the wildcard pattern";
an error of the matcher is returned (section 7: "No error is swallowed"). The pattern is
the container identifier of the locator, which section 6 lets be "empty or contain a
wildcard to request account-level scope": with the empty identifier there is no pattern
to filter by and every listed container is kept, as `TestServiceTraverserWithManyObjects`
asserts of the account traversers built on a service URL without a container name.
`containers` are the names the account-scope listing yields, in order. -/
def listContainers (filepath_Match : String → String → Bool × error) (pattern : String) :
    List String → List String × error
  | [] => ([], none)
  | v :: rest =>
    if pattern ≠ "" then
      match containerNameMatchesPattern filepath_Match v pattern with
      | (_, some err) => ([], some err)
      | (ok, none) =>
        match listContainers filepath_Match pattern rest with
        | (_, some err) => ([], some err)
        | (cList, none) => (if ok then v :: cList else cList, none)
    else
      match listContainers filepath_Match pattern rest with
      | (_, some err) => ([], some err)
      | (cList, none) => (v :: cList, none)

/-- Modelled from the spec: the loop of an account traverser over the matching
containers (implemented outside `zc_enumerator.go`). Section 4.2: "for every container
whose name matches, runs a single-container traverser and decorates every emitted object
with that container's name before passing it to the caller's processor"; section 5:
containers are visited sequentially; the first error is returned. -/
def accountTraverseLoop (containerTraverser : String → resourceTraverser σ)
    (processor : objectProcessor σ) (filters : slice objectFilter) :
    List String → World σ → error × World σ
  | [], w => (none, w)
  | v :: rest, w =>
    let (err, w1) :=
      (containerTraverser v).traverse (initContainerDecorator v processor) filters w
    if err != none then (err, w1)
    else accountTraverseLoop containerTraverser processor filters rest w1

/-- Modelled from the spec: the `traverse` of an account traverser (implemented outside
`zc_enumerator.go`), built on `containerNameMatchesPattern` and `initContainerDecorator`
as section 4.2 describes. -/
def accountTraverse (filepath_Match : String → String → Bool × error)
    (containers : List String) (pattern : String)
    (containerTraverser : String → resourceTraverser σ)
    (processor : objectProcessor σ) (filters : slice objectFilter) (w : World σ) :
    error × World σ :=
  match listContainers filepath_Match pattern containers with
  | (_, some err) => (some err, w)
  | (cList, none) => accountTraverseLoop containerTraverser processor filters cList w

end account

/-- Modelled from the spec: the processor of the glossary, a "callback invoked once per
StoredObject that passed the filter chain", in the form the traverser tests use it
(`dummyProcessor.process`, defined outside `zt_generic_service_traverser_test.go`): it
appends the object to `record`, here the external part of the world, and returns nil. -/
def recordingProcessor : objectProcessor (List storedObject) :=
  fun object w => (none, { w with ext := w.ext ++ [object] })

/-- The objects a single-container traversal of `entries` delivers to a processor, in
order: the record left by `recordingProcessor` when started on an empty record. -/
def singleTraversalOutput (filters : slice objectFilter) (entries : List storedObject) :
    List storedObject :=
  ((newContainerTraverser entries).traverse recordingProcessor filters
    { glcmOutput := [], httpsRecommendationOnce := false, ext := [] }).2.ext

/-- The object with its `containerName` set to the given name. -/
def withContainerName (containerName : String) (object : storedObject) : storedObject :=
  { object with containerName := containerName }

/-- The listed containers whose name `containerNameMatchesPattern` reports as matching
the pattern, i.e. for which it returns `(true, nil)`. -/
def matchingContainers (filepath_Match : String → String → Bool × error)
    (pattern : String) (containers : List String) : List String :=
  containers.filter
    (fun c => decide (containerNameMatchesPattern filepath_Match c pattern = (true, none)))

/-- The containers an account traversal is to visit: with a pattern, the listed containers
whose name matches it; with the empty container identifier, every listed container. -/
def traversedContainers (filepath_Match : String → String → Bool × error)
    (pattern : String) (containers : List String) : List String :=
  if pattern = "" then containers else matchingContainers filepath_Match pattern containers

/-- The outcome of an account traversal over containers holding `contents`, observed with
`recordingProcessor` from an empty record: the error returned and the objects delivered to
the processor, in order. -/
def accountTraversalOutput (filepath_Match : String → String → Bool × error)
    (containers : List String) (pattern : String) (contents : String → List storedObject)
    (filters : slice objectFilter) : error × List storedObject :=
  let r := accountTraverse filepath_Match containers pattern
    (fun c => newContainerTraverser (contents c)) recordingProcessor filters
    { glcmOutput := [], httpsRecommendationOnce := false, ext := [] }
  (r.1, r.2.ext)

/-! ## Shell-glob matching of container names -/

/-- The bytes of a Go string: its UTF-8 encoding. Go compares, slices and measures
strings by bytes. -/
def goBytes (s : String) : List UInt8 := s.toList.flatMap String.utf8EncodeChar

/-- Go `strings.HasPrefix(s, pre)`: the bytes of `pre` begin `s`. -/
def strings_HasPrefix (s pre : String) : Bool := (goBytes pre).isPrefixOf (goBytes s)

/-- Go `filepath.Separator` on Unix, the byte of `/`. -/
def filepath_Separator : UInt8 := 47

/-- Go `filepath.ErrBadPattern`. -/
def filepath_ErrBadPattern : String := "syntax error in pattern"

/-- Go `utf8.RuneError`. -/
def utf8_RuneError : Nat := 0xFFFD

/-- Modelled from the spec: the tables `first` and `acceptRanges` of the Go library
`unicode/utf8` (not part of the repository), read for a leading byte of 0x80 or more: the
length of the sequence and the range allowed for its second byte, or none for a byte that
cannot lead. They serve the `?` and the character classes of the shell-glob semantics
section 4.2 names. -/
def utf8_first (s0 : Nat) : Option (Nat × Nat × Nat) :=
  if s0 < 0xC2 then none
  else if s0 ≤ 0xDF then some (2, 0x80, 0xBF)
  else if s0 = 0xE0 then some (3, 0xA0, 0xBF)
  else if s0 ≤ 0xEC then some (3, 0x80, 0xBF)
  else if s0 = 0xED then some (3, 0x80, 0x9F)
  else if s0 ≤ 0xEF then some (3, 0x80, 0xBF)
  else if s0 = 0xF0 then some (4, 0x90, 0xBF)
  else if s0 ≤ 0xF3 then some (4, 0x80, 0xBF)
  else if s0 = 0xF4 then some (4, 0x80, 0x8F)
  else none

/-- Modelled from the spec: `utf8.DecodeRuneInString` of the Go library (not part of the
repository): the first rune of the bytes and its width; an invalid or short sequence
gives `RuneError` with width 1, no byte gives `RuneError` with width 0. -/
def utf8_DecodeRuneInString (s : List UInt8) : Nat × Nat :=
  match s with
  | [] => (utf8_RuneError, 0)
  | b0 :: rest =>
    let s0 := b0.toNat
    if s0 < 0x80 then (s0, 1)
    else
      match utf8_first s0 with
      | none => (utf8_RuneError, 1)
      | some (sz, lo, hi) =>
        if s.length < sz then (utf8_RuneError, 1)
        else
          match rest with
          | [] => (utf8_RuneError, 1)
          | b1 :: rest1 =>
            let s1 := b1.toNat
            if s1 < lo || hi < s1 then (utf8_RuneError, 1)
            else if sz ≤ 2 then (((s0 &&& 0x1F) <<< 6) ||| (s1 &&& 0x3F), 2)
            else
              match rest1 with
              | [] => (utf8_RuneError, 1)
              | b2 :: rest2 =>
                let s2 := b2.toNat
                if s2 < 0x80 || 0xBF < s2 then (utf8_RuneError, 1)
                else if sz ≤ 3 then
                  (((s0 &&& 0x0F) <<< 12) ||| ((s1 &&& 0x3F) <<< 6) ||| (s2 &&& 0x3F), 3)
                else
                  match rest2 with
                  | [] => (utf8_RuneError, 1)
                  | b3 :: _ =>
                    let s3 := b3.toNat
                    if s3 < 0x80 || 0xBF < s3 then (utf8_RuneError, 1)
                    else
                      (((s0 &&& 0x07) <<< 18) ||| ((s1 &&& 0x3F) <<< 12) |||
                        ((s2 &&& 0x3F) <<< 6) ||| (s3 &&& 0x3F), 4)

/-- Modelled from the spec: the scan loop of `scanChunk` in the Go library `path/filepath`
(not part of the repository): the index at which the chunk ends, i.e. of the first `*`
(byte 42) outside a character class; a backslash (92) skips the byte after it, `[` (91)
opens a class and `]` (93) closes it. -/
def scanIndex : Bool → List UInt8 → Nat
  | _, [] => 0
  | inrange, c :: rest =>
    if c = 92 then
      match rest with
      | [] => 1
      | _ :: rest' => 2 + scanIndex inrange rest'
    else if c = 91 then 1 + scanIndex true rest
    else if c = 93 then 1 + scanIndex false rest
    else if c = 42 then (if !inrange then 0 else 1 + scanIndex inrange rest)
    else 1 + scanIndex inrange rest

/-- Modelled from the spec: `scanChunk(pattern)` of the Go library `path/filepath` (not
part of the repository): whether the pattern starts with stars, the chunk after them up to
the next star, and the rest of the pattern. -/
def scanChunk (pattern : List UInt8) : Bool × List UInt8 × List UInt8 :=
  let stripped := pattern.dropWhile (fun c => c == 42)
  let star := decide (stripped.length < pattern.length)
  let i := scanIndex false stripped
  (star, stripped.take i, stripped.drop i)

/-- Modelled from the spec: `getEsc(chunk)` of the Go library `path/filepath` (not part of
the repository): a possibly escaped character of a character class, what follows it, and
the error for a class that is malformed or not closed. -/
def getEsc (chunk : List UInt8) : Nat × List UInt8 × error :=
  match chunk with
  | [] => (0, [], some filepath_ErrBadPattern)
  | c :: rest =>
    if c = 45 ∨ c = 93 then (0, [], some filepath_ErrBadPattern)
    else if c = 92 ∧ rest = [] then (0, [], some filepath_ErrBadPattern)
    else
      let chunk := if c = 92 then rest else c :: rest
      let (r, n) := utf8_DecodeRuneInString chunk
      let err : error :=
        if r = utf8_RuneError ∧ n = 1 then some filepath_ErrBadPattern else none
      let nchunk := chunk.drop n
      let err : error := if nchunk.length = 0 then some filepath_ErrBadPattern else err
      (r, nchunk, err)

/-- Modelled from the spec: the loop `parse all ranges` of `matchChunk` in the Go library
`path/filepath` (not part of the repository): it reads the ranges of a character class up
to the closing `]` and tells whether the rune `r` lies in one of them. Every turn consumes
a byte of the chunk, so fuel of the length of the chunk is enough. -/
def parseRanges : Nat → List UInt8 → Nat → Bool → Nat → Except String (List UInt8 × Bool)
  | 0, _, _, _, _ => Except.error filepath_ErrBadPattern
  | fuel + 1, chunk, r, matched, nrange =>
    if chunk.head? = some 93 ∧ nrange > 0 then Except.ok (chunk.drop 1, matched)
    else
      match getEsc chunk with
      | (_, _, some err) => Except.error err
      | (lo, chunk, none) =>
        if chunk.head? = some 45 then
          match getEsc (chunk.drop 1) with
          | (_, _, some err) => Except.error err
          | (hi, chunk, none) =>
            parseRanges fuel chunk r (matched || decide (lo ≤ r ∧ r ≤ hi)) (nrange + 1)
        else
          parseRanges fuel chunk r (matched || decide (lo ≤ r ∧ r ≤ lo)) (nrange + 1)

/-- Modelled from the spec: the loop of `matchChunk(chunk, s)` in the Go library
`path/filepath` (not part of the repository), as of Go 1.16 (earlier releases report a
malformed pattern less often and agree otherwise): the chunk, made of literals, `?`
(byte 63), classes and escapes, is matched against the beginning of `s`; after a failure
the rest of the chunk is still checked for syntax. Every turn consumes a byte of the
chunk, so fuel above the length of the chunk is enough. -/
def matchChunkLoop : Nat → List UInt8 → List UInt8 → Bool → List UInt8 × Bool × error
  | 0, _, _, _ => ([], false, some filepath_ErrBadPattern)
  | _ + 1, [], s, failed => if failed then ([], false, none) else (s, true, none)
  | fuel + 1, c :: chunk, s, failed =>
    let failed := if !failed && s.length = 0 then true else failed
    if c = 91 then
      let r := if !failed then (utf8_DecodeRuneInString s).1 else 0
      let s := if !failed then s.drop (utf8_DecodeRuneInString s).2 else s
      let negated := decide (chunk.head? = some 94)
      let chunk := if negated then chunk.drop 1 else chunk
      match parseRanges fuel chunk r false 0 with
      | Except.error err => ([], false, some err)
      | Except.ok (chunk, matched) =>
        matchChunkLoop fuel chunk s (if matched = negated then true else failed)
    else if c = 63 then
      let failed' := if !failed && s.head? = some filepath_Separator then true else failed
      let s := if !failed then s.drop (utf8_DecodeRuneInString s).2 else s
      matchChunkLoop fuel chunk s failed'
    else if c = 92 then
      match chunk with
      | [] => ([], false, some filepath_ErrBadPattern)
      | c' :: chunk' =>
        let failed' := if !failed && s.head? ≠ some c' then true else failed
        let s := if !failed then s.drop 1 else s
        matchChunkLoop fuel chunk' s failed'
    else
      let failed' := if !failed && s.head? ≠ some c then true else failed
      let s := if !failed then s.drop 1 else s
      matchChunkLoop fuel chunk s failed'

/-- Modelled from the spec: `matchChunk(chunk, s)` of the Go library `path/filepath` (not
part of the repository): what is left of `s` after the chunk, whether the chunk matched,
and the error of a malformed chunk. -/
def matchChunk (chunk s : List UInt8) : List UInt8 × Bool × error :=
  matchChunkLoop (chunk.length + 1) chunk s false

/-- How the search of `filepath.Match` for a chunk that follows a star ends. -/
inductive StarSearch where
  | found (t : List UInt8)
  | failed (err : String)
  | exhausted

/-- Modelled from the spec: the loop `Look for match skipping i+1 bytes` of `Match` in the
Go library `path/filepath` (not part of the repository): the bytes a star may swallow are
skipped one at a time, never a separator; a match of the last chunk that does not exhaust
the name is passed over. -/
def starLoop (chunk : List UInt8) (lastChunk : Bool) : List UInt8 → StarSearch
  | [] => StarSearch.exhausted
  | c :: rest =>
    if c = filepath_Separator then StarSearch.exhausted
    else
      match matchChunk chunk rest with
      | (t, true, _) =>
        if lastChunk ∧ t.length > 0 then starLoop chunk lastChunk rest
        else StarSearch.found t
      | (_, false, some err) => StarSearch.failed err
      | (_, false, none) => starLoop chunk lastChunk rest

/-- Modelled from the spec: the loop `Pattern` of `Match` in the Go library
`path/filepath` (not part of the repository), the shell-glob matcher of section 4.2
("shell-glob semantics — `*`, `?`, character classes"): chunk after chunk of the pattern
is matched against the name; a trailing star matches what is left unless it holds a
separator. Every turn consumes a byte of the pattern, so fuel above the length of the
pattern is enough. -/
def matchLoop : Nat → List UInt8 → List UInt8 → Bool × error
  | 0, _, _ => (false, some filepath_ErrBadPattern)
  | fuel + 1, pattern, name =>
    if pattern.length > 0 then
      let (star, chunk, pattern) := scanChunk pattern
      if star ∧ chunk = [] then (!name.contains filepath_Separator, none)
      else
        match matchChunk chunk name with
        | (t, ok, err) =>
          if ok ∧ (t.length = 0 ∨ pattern.length > 0) then matchLoop fuel pattern t
          else if err ≠ none then (false, err)
          else if star then
            match starLoop chunk (decide (pattern.length = 0)) name with
            | StarSearch.found t => matchLoop fuel pattern t
            | StarSearch.failed err => (false, some err)
            | StarSearch.exhausted => (false, none)
          else (false, none)
    else (decide (name.length = 0), none)

/-- Modelled from the spec: `filepath.Match(pattern, name)` of the Go library (not part of
the repository), on the bytes of the two strings, for the Unix separator and escape. -/
def filepath_Match (pattern name : String) : Bool × error :=
  matchLoop ((goBytes pattern).length + 1) (goBytes pattern) (goBytes name)

/-! ## Object names: `getObjectNameOnly` -/

/-- Modelled from the spec: the constant `common.AZCOPY_PATH_SEPARATOR_STRING` (package
`common` is not under `src/`), the one canonical path separator of the data model, `/`. -/
def common_AZCOPY_PATH_SEPARATOR_STRING : String := "/"

/-- The search of Go `strings.LastIndex` from index `i` down to 0: the greatest index not
above `i` at which `substr` begins in `s`, or -1. -/
def lastIndexLoop (s substr : List UInt8) : Nat → Int
  | 0 => if substr.isPrefixOf s then 0 else -1
  | i + 1 =>
    if substr.isPrefixOf (s.drop (i + 1)) then ((i + 1 : Nat) : Int)
    else lastIndexLoop s substr i

/-- Go `strings.LastIndex(s, substr)` on the bytes of the two strings: the index of the
last instance of `substr` in `s`, or -1 if there is none; `len(s)` for the empty
`substr`. -/
def strings_LastIndex (s substr : List UInt8) : Int :=
  if s.length < substr.length then -1
  else lastIndexLoop s substr (s.length - substr.length)

/-- Go `getObjectNameOnly(fullPath)`. A Go string is its bytes: `len` counts them,
`strings.LastIndex` gives a byte index and `fullPath[lastPathSeparator+1:]` drops
bytes. -/
def getObjectNameOnly (fullPath : List UInt8) : List UInt8 :=
  let lastPathSeparator :=
    strings_LastIndex fullPath (goBytes common_AZCOPY_PATH_SEPARATOR_STRING)
  -- if there is a path separator and it is not the last character
  if lastPathSeparator > 0 ∧ lastPathSeparator ≠ (fullPath.length : Int) - 1 then
    -- then we separate out the name of the storedObject
    fullPath.drop (lastPathSeparator + 1).toNat
  else fullPath

/-! ## The job submission boundary (`handlers/debugDispatcher.go`) -/

/-- How a call that yields an `α` ends: it returns a value, or it panics with the value
handed to `panic` (an `error`, which may be nil). -/
inductive Completion (α : Type) where
  | returned (value : α)
  | panicked (value : error)
  deriving DecidableEq, Repr

/-- What `sendJobPartOrderToSTE` calls: `http.Post`, `time.Sleep`, `ioutil.ReadAll` on the
body of a response and `Close` on that body, acting on a state `σ` (network and clock).
`Resp` stands for `*http.Response`; by the contract of `net/http` a call yields a response
or an error. The body of a POST is a `bytes.Buffer`: the call gets the bytes not yet read
and also yields those it has left unread. -/
structure SubmitDeps (σ Resp : Type) where
  http_Post : String → String → List Nat → σ → (Except String Resp × List Nat) × σ
  time_Sleep : Nat → σ → σ
  ioutil_ReadAll : Resp → σ → (List Nat × error) × σ
  Body_Close : Resp → σ → σ

section submit

variable {σ Resp : Type}

/-- The end of `sendJobPartOrderToSTE`, from `defer res.Body.Close()` on: the body is read,
a read error panics, and the deferred `Close` runs when the function is left, also by a
panic. -/
def readResponse (d : SubmitDeps σ Resp) (res : Resp) (s : σ) : Completion Unit × σ :=
  match d.ioutil_ReadAll res s with
  | ((_, some err), s1) => (Completion.panicked (some err), d.Body_Close res s1)
  | ((_, none), s1) => (Completion.returned (), d.Body_Close res s1)

/-- Go `sendJobPartOrderToSTE(payload)`; `2 * time.Second` is in nanoseconds. -/
def sendJobPartOrderToSTE (d : SubmitDeps σ Resp) (payload : List Nat) (s : σ) :
    Completion Unit × σ :=
  let url := "http://localhost:1337"
  let payloadContentType := "application/json; charset=utf-8"
  match d.http_Post url payloadContentType payload s with
  | ((Except.error _, payloadBuffer), s1) =>
    let s2 := d.time_Sleep (2 * 1000000000) s1
    match d.http_Post url payloadContentType payloadBuffer s2 with
    | ((Except.error err, _), s3) => (Completion.panicked (some err), s3)
    | ((Except.ok res, _), s3) => readResponse d res s3
  | ((Except.ok res, _), s1) => readResponse d res s1

/-- A call `sendJobPartOrderToSTE` makes. -/
inductive SubmitCall where
  | post (url contentType : String) (body : List Nat)
  | sleep (nanoseconds : Nat)
  | readAll
  | close
  deriving DecidableEq, Repr

/-- The same functions, each also writing the call it receives to a log kept next to the
state. -/
def SubmitDeps.logged (d : SubmitDeps σ Resp) : SubmitDeps (σ × List SubmitCall) Resp :=
  { http_Post := fun url contentType body s =>
      let r := d.http_Post url contentType body s.1
      (r.1, (r.2, s.2 ++ [SubmitCall.post url contentType body]))
    time_Sleep := fun n s => (d.time_Sleep n s.1, s.2 ++ [SubmitCall.sleep n])
    ioutil_ReadAll := fun res s =>
      let r := d.ioutil_ReadAll res s.1
      (r.1, (r.2, s.2 ++ [SubmitCall.readAll]))
    Body_Close := fun res s => (d.Body_Close res s.1, s.2 ++ [SubmitCall.close]) }

/-- The calls `sendJobPartOrderToSTE` makes for a payload, in order. -/
def submitCalls (d : SubmitDeps σ Resp) (payload : List Nat) (s : σ) : List SubmitCall :=
  (sendJobPartOrderToSTE d.logged payload (s, [])).2.2

/-- The number of `http.Post` calls in a log. -/
def postCount (calls : List SubmitCall) : Nat :=
  (calls.filter (fun c => match c with
    | SubmitCall.post _ _ _ => true
    | _ => false)).length

end submit

/-- Go `common.ListJobPartsTransfers`, the fields set by `fetchJobStatus`. -/
structure ListJobPartsTransfers where
  JobId : String
  ExpectedTransferStatus : Nat
  deriving DecidableEq, Repr

/-- An element of `JobProgressSummary.FailedTransfers`, the fields read. -/
structure TransferDetail where
  Src : String
  Dst : String
  deriving DecidableEq, Repr

/-- Go `common.JobProgressSummary`, the fields `fetchJobStatus` reads; `F` stands for
`float64`. -/
structure JobProgressSummary (F : Type) where
  TotalNumberOfTransfers : Nat
  TotalNumberofTransferCompleted : Nat
  TotalNumberofFailedTransfer : Nat
  CompleteJobOrdered : Bool
  PercentageProgress : Nat
  ThroughputInBytesPerSeconds : F
  FailedTransfers : List TransferDetail
  JobStatus : String

/-- A call that writes to the console: `fmt.Println` and the functions of `goterm`, with
the operands already turned into text. -/
inductive ConsoleCall where
  | fmt_Println (operands : List String)
  | tm_Clear
  | tm_MoveCursor (x y : Nat)
  | tm_Println (operands : List String)
  | tm_Flush
  deriving DecidableEq, Repr

/-- What `fetchJobStatus` calls, acting on a state `σ` (network and console). `Req` and
`Resp` stand for `*http.Request` and `*http.Response`; `encodeQuery` is the sequence
`q := req.URL.Query(); q.Add(...); q.Add(...); req.URL.RawQuery = q.Encode()`;
`json_Marshal` yields the JSON text; `json_Unmarshal` fills the summary it is given and
yields an error when the bytes cannot be deserialized; `float64_zero` is the zero value of
`float64` and `formatThroughput x` is `fmt.Sprintf("%f MB/s", x/1024/1024)`. -/
structure PollDeps (σ Req Resp F : Type) where
  http_NewRequest : String → String → Except String Req
  json_Marshal : ListJobPartsTransfers → String × error
  encodeQuery : Req → List (String × String) → Req
  client_Do : Req → σ → Except String Resp × σ
  StatusCode : Resp → Nat
  Status : Resp → String
  ioutil_ReadAll : Resp → σ → (List Nat × error) × σ
  Body_Close : Resp → σ → σ
  json_Unmarshal : List Nat → JobProgressSummary F → JobProgressSummary F × error
  float64_zero : F
  formatThroughput : F → String
  console : ConsoleCall → σ → σ

section poll

variable {σ Req Resp F : Type}

/-- Go `http.StatusAccepted`. -/
def http_StatusAccepted : Nat := 202

/-- Go `math.MaxUint8`. -/
def math_MaxUint8 : Nat := 255

/-- The zero value of `common.JobProgressSummary`, what `var summary` holds. -/
def zeroSummary (d : PollDeps σ Req Resp F) : JobProgressSummary F :=
  { TotalNumberOfTransfers := 0, TotalNumberofTransferCompleted := 0,
    TotalNumberofFailedTransfer := 0, CompleteJobOrdered := false, PercentageProgress := 0,
    ThroughputInBytesPerSeconds := d.float64_zero, FailedTransfers := [], JobStatus := "" }

/-- The loop `for index := 0; index < len(summary.FailedTransfers); index++` of
`fetchJobStatus`, from the given index on. -/
def printFailedTransfers (d : PollDeps σ Req Resp F) :
    Nat → List TransferDetail → σ → σ
  | _, [], s => s
  | index, t :: rest, s =>
    let message := "transfer-" ++ toString index ++ "\tsource: " ++ t.Src ++
      "\tdestination: " ++ t.Dst
    printFailedTransfers d (index + 1) rest (d.console (ConsoleCall.fmt_Println [message]) s)

/-- The part of `fetchJobStatus` that writes the summary to the console, from `tm.Clear()`
to `tm.Flush()`. -/
def printSummary (d : PollDeps σ Req Resp F) (jobId : String)
    (summary : JobProgressSummary F) (s : σ) : σ :=
  let s := d.console ConsoleCall.tm_Clear s
  let s := d.console (ConsoleCall.tm_MoveCursor 1 1) s
  let s := d.console (ConsoleCall.fmt_Println
    ["----------------- Progress Summary for JobId ", jobId, "------------------"]) s
  let s := d.console (ConsoleCall.tm_Println
    ["Total Number of Transfers: ", toString summary.TotalNumberOfTransfers]) s
  let s := d.console (ConsoleCall.tm_Println
    ["Total Number of Transfers Completed: ",
      toString summary.TotalNumberofTransferCompleted]) s
  let s := d.console (ConsoleCall.tm_Println
    ["Total Number of Transfers Failed: ", toString summary.TotalNumberofFailedTransfer]) s
  let s := d.console (ConsoleCall.tm_Println
    ["Job order fully received: ", toString summary.CompleteJobOrdered]) s
  let s := d.console (ConsoleCall.tm_Println
    ["Job Progress: " ++ toString summary.PercentageProgress ++ " %"]) s
  let s := d.console (ConsoleCall.tm_Println
    ["Realtime Throughput: " ++ d.formatThroughput summary.ThroughputInBytesPerSeconds]) s
  let s := printFailedTransfers d 0 summary.FailedTransfers s
  d.console ConsoleCall.tm_Flush s

/-- Go `fetchJobStatus(jobId)`. The result of `json.Unmarshal` is not looked at; when the
status is not 202 the value handed to `panic` is the nil `err` of `client.Do`; the
deferred `Close` runs when the function is left after the status check. -/
def fetchJobStatus (d : PollDeps σ Req Resp F) (jobId : String) (s : σ) :
    Completion String × σ :=
  let url := "http://localhost:1337"
  match d.http_NewRequest "GET" url with
  | Except.error err => (Completion.panicked (some err), s)
  | Except.ok req =>
    let lsCommand : ListJobPartsTransfers :=
      { JobId := jobId, ExpectedTransferStatus := math_MaxUint8 }
    match d.json_Marshal lsCommand with
    | (_, some err) => (Completion.panicked (some err), s)
    | (lsCommandMarshalled, none) =>
      let req := d.encodeQuery req [("Type", "list"), ("command", lsCommandMarshalled)]
      match d.client_Do req s with
      | (Except.error err, s1) => (Completion.panicked (some err), s1)
      | (Except.ok resp, s1) =>
        if d.StatusCode resp != http_StatusAccepted then
          let s2 := d.console
            (ConsoleCall.fmt_Println ["request failed with status ", d.Status resp]) s1
          (Completion.panicked none, s2)
        else
          match d.ioutil_ReadAll resp s1 with
          | ((_, some err), s2) => (Completion.panicked (some err), d.Body_Close resp s2)
          | ((body, none), s2) =>
            let summary := (d.json_Unmarshal body (zeroSummary d)).1
            let s3 := printSummary d jobId summary s2
            (Completion.returned summary.JobStatus, d.Body_Close resp s3)

/-- The same functions, with `client.Do` also counting its calls next to the state. -/
def PollDeps.counted (d : PollDeps σ Req Resp F) : PollDeps (σ × Nat) Req Resp F :=
  { http_NewRequest := d.http_NewRequest
    json_Marshal := d.json_Marshal
    encodeQuery := d.encodeQuery
    client_Do := fun req s =>
      let r := d.client_Do req s.1
      (r.1, (r.2, s.2 + 1))
    StatusCode := d.StatusCode
    Status := d.Status
    ioutil_ReadAll := fun resp s =>
      let r := d.ioutil_ReadAll resp s.1
      (r.1, (r.2, s.2))
    Body_Close := fun resp s => (d.Body_Close resp s.1, s.2)
    json_Unmarshal := d.json_Unmarshal
    float64_zero := d.float64_zero
    formatThroughput := d.formatThroughput
    console := fun c s => (d.console c s.1, s.2) }

/-- The request `fetchJobStatus` sends for a job, when it can be built. -/
def pollRequest (d : PollDeps σ Req Resp F) (jobId : String) : Option Req :=
  match d.http_NewRequest "GET" "http://localhost:1337" with
  | Except.error _ => none
  | Except.ok req =>
    match d.json_Marshal { JobId := jobId, ExpectedTransferStatus := math_MaxUint8 } with
    | (_, some _) => none
    | (text, none) => some (d.encodeQuery req [("Type", "list"), ("command", text)])

end poll

/-! ## Specification-side predicates -/

/-- True when the string contains a shell-glob wildcard: `*`, `?`, or a character class
opened by `[` and closed by a later `]`. -/
def hasGlobWildcard (s : String) : Bool :=
  s.toList.contains '*' || s.toList.contains '?' ||
    (s.toList.dropWhile (fun c => c != '[')).contains ']'

/-- The top-level identifier (container, share, filesystem or bucket name) the factory
reads off a parsed locator for each remote kind; `none` when the kind is not remote or the
S3 locator does not parse. -/
def topLevelIdentifier {σ Ctx Cred Pipe T : Type} (d : Deps σ Ctx Cred Pipe T) :
    Location → URL → Option String
  | Location.Blob, u => some (d.NewBlobURLParts u).ContainerName
  | Location.File, u => some (d.NewFileURLParts u).ShareName
  | Location.BlobFS, u => some (d.NewBfsURLParts u).FileSystemName
  | Location.S3, u =>
    match d.NewS3URLParts u with
    | (parts, none) => some parts.BucketName
    | (_, some _) => none
  | _, _ => none

/-- The four remote kinds of the factory. -/
def isRemoteKind : Location → Bool
  | Location.Blob => true
  | Location.File => true
  | Location.BlobFS => true
  | Location.S3 => true
  | _ => false

/-- The call of the account-level constructor of a remote kind, as the factory writes it;
the three constructors that return no error are paired with a nil error. -/
def accountConstructor {σ Ctx Cred Pipe T : Type} (d : Deps σ Ctx Cred Pipe T)
    (location : Location) (u : URL) (p : Pipe) (ctx : Ctx)
    (incrementEnumerationCounter : enumerationCounter σ) : Option T × error :=
  match location with
  | Location.Blob => (d.newBlobAccountTraverser u p ctx incrementEnumerationCounter, none)
  | Location.File => (d.newFileAccountTraverser u p ctx incrementEnumerationCounter, none)
  | Location.BlobFS => (d.newBlobFSAccountTraverser u p ctx incrementEnumerationCounter, none)
  | Location.S3 => d.newS3ServiceTraverser u ctx incrementEnumerationCounter
  | _ => (none, none)

/-- The call of the single-container constructor of a remote kind, as the factory writes
it; the three constructors that return no error are paired with a nil error. -/
def containerConstructor {σ Ctx Cred Pipe T : Type} (d : Deps σ Ctx Cred Pipe T)
    (location : Location) (u : URL) (p : Pipe) (ctx : Ctx) (recursive : Bool)
    (incrementEnumerationCounter : enumerationCounter σ) : Option T × error :=
  match location with
  | Location.Blob => (d.newBlobTraverser u p ctx recursive incrementEnumerationCounter, none)
  | Location.File => (d.newFileTraverser u p ctx recursive incrementEnumerationCounter, none)
  | Location.BlobFS =>
    (d.newBlobFSTraverser u p ctx recursive incrementEnumerationCounter, none)
  | Location.S3 => d.newS3Traverser u ctx recursive incrementEnumerationCounter
  | _ => (none, none)

/-- What the factory does with the result of a constructor: an error is returned with a
nil traverser, a traverser goes through the sanity check and is returned. -/
def afterConstructor {T : Type} : Option T × error → Outcome T
  | (_, some err) => Outcome.returned none (some err)
  | (output, none) => sanityCheck output

/-- The constructor `newListTraverser`, which has no error result, returns a non-nil
traverser. -/
def listTraverserNonNil {σ Ctx Cred Pipe T : Type} (d : Deps σ Ctx Cred Pipe T) : Prop :=
  ∀ parent sas location credential ctx recursive toFollow ch counter,
    d.newListTraverser parent sas location credential ctx recursive toFollow ch counter
      ≠ none

/-- Every constructor the factory calls returns a non-nil traverser whenever it returns no
error. -/
def constructorsNonNil {σ Ctx Cred Pipe T : Type} (d : Deps σ Ctx Cred Pipe T) : Prop :=
  (∀ parent sas location credential ctx recursive toFollow ch counter,
    d.newListTraverser parent sas location credential ctx recursive toFollow ch counter
      ≠ none) ∧
  (∀ path recursive toFollow counter,
    d.newLocalTraverser path recursive toFollow counter ≠ none) ∧
  (∀ source counter output, d.newBenchmarkTraverser source counter = (output, none) →
    output ≠ none) ∧
  (∀ u p ctx counter, d.newBlobAccountTraverser u p ctx counter ≠ none) ∧
  (∀ u p ctx recursive counter, d.newBlobTraverser u p ctx recursive counter ≠ none) ∧
  (∀ u p ctx counter, d.newFileAccountTraverser u p ctx counter ≠ none) ∧
  (∀ u p ctx recursive counter, d.newFileTraverser u p ctx recursive counter ≠ none) ∧
  (∀ u p ctx counter, d.newBlobFSAccountTraverser u p ctx counter ≠ none) ∧
  (∀ u p ctx recursive counter, d.newBlobFSTraverser u p ctx recursive counter ≠ none) ∧
  (∀ u ctx counter output, d.newS3ServiceTraverser u ctx counter = (output, none) →
    output ≠ none) ∧
  (∀ u ctx recursive counter output, d.newS3Traverser u ctx recursive counter = (output, none) →
    output ≠ none)

/-- Exactly one of the returned traverser and the returned error is non-nil. -/
def exactlyOneNonNil {T : Type} (output : Option T) (err : error) : Prop :=
  (output ≠ none ∧ err = none) ∨ (output = none ∧ err ≠ none)

/-- An outcome that, when it is a return, returns exactly one non-nil value. -/
def Outcome.wellFormed {T : Type} (o : Outcome T) : Prop :=
  ∀ output err, o = Outcome.returned output err → exactlyOneNonNil output err

/-- An outcome that is a return of exactly one non-nil value, or the panic of a nil
dereference. -/
def Outcome.settled {T : Type} (o : Outcome T) : Prop :=
  (∃ t, o = Outcome.returned (some t) none) ∨ (∃ e, o = Outcome.returned none (some e)) ∨
    o = nilDereference

/-- The filters of a chain that `passedFilters` examines for an object: those up to and
including the first one the object does not pass (all of them when it passes every one). -/
def examinedFilters (o : storedObject) : List objectFilter → List objectFilter
  | [] => []
  | f :: rest => if f.doesPass o then f :: examinedFilters o rest else [f]

/-- The reports `glcm.Error` receives for the unsupported filters among the given ones, in
order, each with the message of its filter. -/
def unsupportedReports (fs : List objectFilter) : List glcmMessage :=
  (fs.filter (fun f => !f.doesSupportThisOS.2)).map
    (fun f => glcmMessage.Error f.doesSupportThisOS.1)

/-- The chain with every filter's answer to `doesSupportThisOS` replaced. -/
def withSupport (support : objectFilter → String × Bool) (filters : slice objectFilter) :
    slice objectFilter :=
  filters.map (fun fs => fs.map (fun f => { f with doesSupportThisOS := support f }))

/-- A sequence of calls of `recommendHttpsIfNecessary`, one per URL, in order. -/
def recommendHttpsForAll {σ : Type} (urls : List URL) (w : World σ) : World σ :=
  urls.foldl (fun w url => recommendHttpsIfNecessary url w) w

/-- The number of times the HTTP notice has been handed to `glcm`. -/
def noticeCount {σ : Type} (w : World σ) : Nat :=
  w.glcmOutput.count (glcmMessage.Info httpsRecommendedNotice)

section submit

variable {σ Resp : Type}

/-- True when an attempt yielded an error. -/
def attemptFailed {α β : Type} (r : (Except String α × β) × σ) : Bool :=
  match r.1.1 with
  | Except.error _ => true
  | Except.ok _ => false

/-- The first `http.Post` of `sendJobPartOrderToSTE`, on the whole payload. -/
def firstPost (d : SubmitDeps σ Resp) (payload : List Nat) (s : σ) :
    (Except String Resp × List Nat) × σ :=
  d.http_Post "http://localhost:1337" "application/json; charset=utf-8" payload s

/-- The `http.Post` that follows a failed first one: after the sleep, on what the first
left of the buffer. -/
def secondPost (d : SubmitDeps σ Resp) (payload : List Nat) (s : σ) :
    (Except String Resp × List Nat) × σ :=
  d.http_Post "http://localhost:1337" "application/json; charset=utf-8"
    (firstPost d payload s).1.2 (d.time_Sleep (2 * 1000000000) (firstPost d payload s).2)

/-- The response `sendJobPartOrderToSTE` obtains, with the state it is obtained in: that of
the first POST, else that of the second, else none. -/
def obtainedResponse (d : SubmitDeps σ Resp) (payload : List Nat) (s : σ) :
    Option (Resp × σ) :=
  match firstPost d payload s with
  | ((Except.ok res, _), s1) => some (res, s1)
  | ((Except.error _, _), _) =>
    match secondPost d payload s with
    | ((Except.ok res, _), s3) => some (res, s3)
    | ((Except.error _, _), _) => none

/-- True when a response is obtained and reading its body yields an error. -/
def readFails (d : SubmitDeps σ Resp) (payload : List Nat) (s : σ) : Bool :=
  match obtainedResponse d payload s with
  | some (res, st) => (d.ioutil_ReadAll res st).1.2.isSome
  | none => false

/-- True when the call ended in a panic. -/
def Completion.isPanic {α : Type} : Completion α → Bool
  | Completion.panicked _ => true
  | Completion.returned _ => false

end submit

/-- True when none of the bytes is a glob metacharacter: `*` (42), `?` (63), `[` (91) or
the backslash (92). -/
def literalBytes (p : List UInt8) : Bool :=
  p.all (fun b => b != 42 && b != 63 && b != 91 && b != 92)

/-! ## Concrete values used to instantiate the theorems -/

/-- An object `sub/b.txt` of 20 bytes. -/
def exampleObject : storedObject :=
  { name := "b.txt", lastModifiedTime := 0, size := 20, md5 := [], blobType := "",
    contentDisposition := "", cacheControl := "", contentLanguage := "",
    contentEncoding := "", contentType := "", relativePath := "sub/b.txt",
    containerName := "", dstContainerName := "", blobAccessTier := "", Metadata := [] }

/-- A supported filter that keeps the objects of at least 10 bytes. -/
def sizeFilter : objectFilter :=
  { doesSupportThisOS := ("", true), doesPass := fun o => decide (10 ≤ o.size) }

/-- A supported filter that rejects every object. -/
def rejectAllFilter : objectFilter :=
  { doesSupportThisOS := ("", true), doesPass := fun _ => false }

/-- A world with an empty record, no message and the HTTP notice not yet given. -/
def emptyWorld : World (List storedObject) :=
  { glcmOutput := [], httpsRecommendationOnce := false, ext := [] }

/-- A traverser that records an object named after it and returns the given error; it
ignores the processor and the filters. -/
def markingTraverser (mark : String) (result : error) : resourceTraverser (List storedObject) :=
  { traverse := fun _ _ w =>
      (result, { w with ext := w.ext ++ [{ exampleObject with name := mark }] })
    isDirectory := fun _ w => (true, w) }

/-- A finalizer that records an object named `finalize` and returns the given error. -/
def markingFinalizer (result : error) : World (List storedObject) →
    error × World (List storedObject) :=
  fun w => (result, { w with ext := w.ext ++ [{ exampleObject with name := "finalize" }] })

/-- A sync enumerator over marking components. -/
def exampleSync (primary secondary finalize : error) : syncEnumerator (List storedObject) :=
  newSyncEnumerator (markingTraverser "primary" primary) (markingTraverser "secondary" secondary)
    { store := recordingProcessor } none recordingProcessor (markingFinalizer finalize)

/-- A copy enumerator over marking components. -/
def exampleCopy (traversal finalize : error) : copyEnumerator (List storedObject) :=
  newCopyEnumerator (markingTraverser "traverse" traversal) none recordingProcessor
    (markingFinalizer finalize)

/-- The names of the recorded objects, oldest first. -/
def recordedNames (r : error × World (List storedObject)) : List String :=
  r.2.ext.map (fun o => o.name)

/-- The first segment of a path: what stands between its leading separators and the next
separator. -/
def firstSegment (path : String) : String :=
  String.mk ((path.toList.dropWhile (fun c => c == '/')).takeWhile (fun c => c != '/'))

/-- Stand-ins for the functions the factory calls, over traverser values that name the
constructor that built them: a locator is written as its path under `https://account`,
its first segment is the container, share, filesystem or bucket; the pipeline and every
constructor succeed. -/
def exampleDeps : Deps (List storedObject) Unit Unit Unit String :=
  { cleanLocalPath := fun r => r
    initPipeline := fun _ _ _ => ((), none)
    IsRemote := isRemoteKind
    SplitAuthTokenFromResource := fun r _ => (r, "", none)
    newListTraverser := fun _ _ _ _ _ _ _ _ _ => some "list"
    os_Stat := fun _ => none
    getPathBeforeFirstWildcard := fun r => r
    filepath_Glob := fun _ => ([], none)
    newLocalTraverser := fun _ _ _ _ => some "local"
    newBenchmarkTraverser := fun _ _ => (some "benchmark", none)
    url_Parse := fun r =>
      (some { Scheme := "https", Host := "account", Path := r, RawQuery := "" }, none)
    NewBlobURLParts := fun u => { ContainerName := firstSegment u.Path }
    NewFileURLParts := fun u => { ShareName := firstSegment u.Path }
    NewBfsURLParts := fun u => { FileSystemName := firstSegment u.Path }
    NewS3URLParts := fun u => ({ BucketName := firstSegment u.Path }, none)
    newBlobAccountTraverser := fun _ _ _ _ => some "blobAccount"
    newBlobTraverser := fun _ _ _ _ _ => some "blob"
    newFileAccountTraverser := fun _ _ _ _ => some "fileAccount"
    newFileTraverser := fun _ _ _ _ _ => some "file"
    newBlobFSAccountTraverser := fun _ _ _ _ => some "blobFSAccount"
    newBlobFSTraverser := fun _ _ _ _ _ => some "blobFS"
    newS3ServiceTraverser := fun _ _ _ => (some "s3Service", none)
    newS3Traverser := fun _ _ _ _ => (some "s3", none) }

/-- The URL the stand-in parser gives for a path. -/
def exampleURL (path : String) : URL :=
  { Scheme := "https", Host := "account", Path := path, RawQuery := "" }

/-- The two objects `a.txt` and `sub/b.txt` every example container holds. -/
def exampleContents (_container : String) : List storedObject :=
  [{ exampleObject with name := "a.txt", relativePath := "a.txt", size := 10 }, exampleObject]

/-- A filter that reports itself unsupported and rejects every object. -/
def unsupportedRejectFilter : objectFilter :=
  { doesSupportThisOS := ("attribute filters are not supported on this OS", false),
    doesPass := fun _ => false }

/-- A filter that reports itself unsupported and keeps every object. -/
def unsupportedKeepFilter : objectFilter :=
  { doesSupportThisOS := ("attribute filters are not supported on this OS", false),
    doesPass := fun _ => true }

/-- Stand-ins as `exampleDeps`, but the parser gives every locator the scheme `http`. -/
def httpDeps : Deps (List storedObject) Unit Unit Unit String :=
  { exampleDeps with
    url_Parse := fun r =>
      (some { Scheme := "http", Host := "account", Path := r, RawQuery := "" }, none) }

/-- A transfer engine described by the outcomes its coming `http.Post` calls will have
(`true`: a response, `false`: connection refused); a POST reads the whole buffer and a
response body can be read when the response is not 0. -/
def scriptedEngine : SubmitDeps (List Bool) Nat :=
  { http_Post := fun _ _ _ s =>
      match s with
      | true :: rest => ((Except.ok 202, []), rest)
      | false :: rest => ((Except.error "connection refused", []), rest)
      | [] => ((Except.error "connection refused", []), [])
    time_Sleep := fun _ s => s
    ioutil_ReadAll := fun res s =>
      if res = 0 then (([], some "unexpected EOF"), s) else (([], none), s)
    Body_Close := fun _ s => s }

/-- A transfer engine that answers every poll with the status and the body held in the
state; the stand-in deserializer accepts only a body that starts with an opening brace
(byte 123), from which it reads the job status `InProgress`, and leaves the summary as
it is otherwise; the console is not kept. -/
def scriptedPoll : PollDeps (Nat × List Nat) String (Nat × List Nat) Nat :=
  { http_NewRequest := fun method url => Except.ok (method ++ " " ++ url)
    json_Marshal := fun c => (c.JobId, none)
    encodeQuery := fun req _ => req
    client_Do := fun _ s => (Except.ok s, s)
    StatusCode := fun resp => resp.1
    Status := fun resp => toString resp.1
    ioutil_ReadAll := fun resp s => ((resp.2, none), s)
    Body_Close := fun _ s => s
    json_Unmarshal := fun body summary =>
      match body with
      | 123 :: _ => ({ summary with JobStatus := "InProgress" }, none)
      | _ => (summary, some "invalid character 'o' in literal null (expecting 'u')")
    float64_zero := 0
    formatThroughput := fun x => toString x ++ " MB/s"
    console := fun _ s => s }

/-! # Properties -/

section filters

variable {σ : Type}

theorem passedFiltersLoop_fst (o : storedObject) (fs : List objectFilter) (w : World σ) :
    (passedFiltersLoop o fs w).1 = fs.all (fun f => f.doesPass o) := by
  induction fs generalizing w with
  | nil => rfl
  | cons f rest ih =>
    simp only [passedFiltersLoop, List.all_cons]
    cases h : f.doesPass o <;> simp [ih]

theorem passedFilters_fst (filters : slice objectFilter) (o : storedObject) (w : World σ) :
    (passedFilters filters o w).1 = filters.elems.all (fun f => f.doesPass o) := by
  unfold passedFilters
  split
  · exact passedFiltersLoop_fst o _ w
  · rename_i h
    cases filters with
    | none => simp [slice.elems]
    | some fs =>
      cases fs with
      | nil => simp [slice.elems]
      | cons f rest => simp [slice.len, slice.elems] at h

theorem passedFiltersLoop_frame (o : storedObject) (fs : List objectFilter) (w : World σ) :
    (passedFiltersLoop o fs w).2.ext = w.ext ∧
      (passedFiltersLoop o fs w).2.httpsRecommendationOnce = w.httpsRecommendationOnce := by
  induction fs generalizing w with
  | nil => exact ⟨rfl, rfl⟩
  | cons f rest ih =>
    simp only [passedFiltersLoop]
    cases hp : f.doesPass o <;> cases hs : f.doesSupportThisOS.2 <;>
      simp [ih, glcm_Error]

theorem passedFilters_frame (filters : slice objectFilter) (o : storedObject) (w : World σ) :
    (passedFilters filters o w).2.ext = w.ext ∧
      (passedFilters filters o w).2.httpsRecommendationOnce = w.httpsRecommendationOnce := by
  unfold passedFilters
  split
  · exact passedFiltersLoop_frame o _ w
  · exact ⟨rfl, rfl⟩

/-- C1: for every filter chain (nil, empty or non-empty), object and processor,
`passedFilters` is true exactly when every filter of the chain passes the object; in that
case `processIfPassedFilters` is one call of the processor, on the object itself and in the
world left by the filter checks (which differs from the initial one by reports to `glcm`
only), and returns the result of that call; otherwise the processor is not called (the
final world is the one left by the filter checks, whatever the processor is) and nil is
returned. -/
theorem processIfPassedFilters_spec (filters : slice objectFilter) (o : storedObject)
    (processor : objectProcessor σ) (w : World σ) :
    ((passedFilters filters o w).1 = true ↔ ∀ f ∈ filters.elems, f.doesPass o = true) ∧
    ((∀ f ∈ filters.elems, f.doesPass o = true) →
      processIfPassedFilters filters o processor w
        = processor o (passedFilters filters o w).2) ∧
    ((¬ ∀ f ∈ filters.elems, f.doesPass o = true) →
      processIfPassedFilters filters o processor w
        = (none, (passedFilters filters o w).2)) ∧
    (passedFilters filters o w).2.ext = w.ext ∧
    (passedFilters filters o w).2.httpsRecommendationOnce = w.httpsRecommendationOnce := by
  have hiff : (passedFilters filters o w).1 = true ↔
      ∀ f ∈ filters.elems, f.doesPass o = true := by
    rw [passedFilters_fst, List.all_eq_true]
  refine ⟨hiff, ?_, ?_, passedFilters_frame filters o w⟩
  · intro h
    have h1 := hiff.mpr h
    unfold processIfPassedFilters
    simp [h1]
  · intro h
    have h1 : (passedFilters filters o w).1 = false := by
      cases hb : (passedFilters filters o w).1
      · rfl
      · exact absurd (hiff.mp hb) h
    unfold processIfPassedFilters
    simp [h1]

/-- Witness for C1: a nil chain and a chain whose one filter passes hand the example
object to the recording processor; a chain with a rejecting filter does not. -/
theorem processIfPassedFilters_spec_witness :
    processIfPassedFilters none exampleObject recordingProcessor emptyWorld
        = recordingProcessor exampleObject (passedFilters none exampleObject emptyWorld).2 ∧
    processIfPassedFilters (some [sizeFilter]) exampleObject recordingProcessor emptyWorld
        = recordingProcessor exampleObject
            (passedFilters (some [sizeFilter]) exampleObject emptyWorld).2 ∧
    processIfPassedFilters (some [sizeFilter, rejectAllFilter]) exampleObject
        recordingProcessor emptyWorld
        = (none, (passedFilters (some [sizeFilter, rejectAllFilter]) exampleObject
            emptyWorld).2) :=
  ⟨(processIfPassedFilters_spec none exampleObject recordingProcessor emptyWorld).2.1
      (by simp [slice.elems]),
   (processIfPassedFilters_spec (some [sizeFilter]) exampleObject recordingProcessor
      emptyWorld).2.1 (by simp [slice.elems, sizeFilter, exampleObject]),
   (processIfPassedFilters_spec (some [sizeFilter, rejectAllFilter]) exampleObject
      recordingProcessor emptyWorld).2.2.1
      (by simp [slice.elems, sizeFilter, rejectAllFilter, exampleObject])⟩

end filters

section enumerators

variable {σ : Type}

/-- C2: when the primary traversal returns a non-nil error, `enumerate` returns that
error in the world the primary traversal left, whatever the secondary traverser and the
finalizer are (neither is invoked); when the primary traversal succeeds and the secondary
traversal returns a non-nil error, `enumerate` returns that error in the world the
secondary traversal left, whatever the finalizer is (it is not invoked). -/
theorem syncEnumerator_enumerate_aborts (e : syncEnumerator σ) (w : World σ) :
    (∀ (err : String) (w1 : World σ),
      e.primaryTraverser.traverse e.objectIndexer.store e.filters w = (some err, w1) →
      e.enumerate w = (some err, w1) ∧
      ∀ (secondary : resourceTraverser σ) (finalize : World σ → error × World σ),
        ({ e with secondaryTraverser := secondary, finalize := finalize }).enumerate w
          = (some err, w1)) ∧
    (∀ (w1 : World σ) (err : String) (w2 : World σ),
      e.primaryTraverser.traverse e.objectIndexer.store e.filters w = (none, w1) →
      e.secondaryTraverser.traverse e.objectComparator e.filters w1 = (some err, w2) →
      e.enumerate w = (some err, w2) ∧
      ∀ (finalize : World σ → error × World σ),
        ({ e with finalize := finalize }).enumerate w = (some err, w2)) := by
  constructor
  · intro err w1 h
    refine ⟨?_, ?_⟩
    · simp [syncEnumerator.enumerate, h]
    · intro secondary finalize
      simp [syncEnumerator.enumerate, h]
  · intro w1 err w2 h1 h2
    refine ⟨?_, ?_⟩
    · simp [syncEnumerator.enumerate, h1, h2]
    · intro finalize
      simp [syncEnumerator.enumerate, h1, h2]

/-- Witness for C2: with a failing primary traversal only the primary traverser has run;
with a failing secondary traversal the finalizer has not run. -/
theorem syncEnumerator_enumerate_aborts_witness :
    (exampleSync (some "listing failed") none none).enumerate emptyWorld
      = (some "listing failed",
          { emptyWorld with ext := [{ exampleObject with name := "primary" }] }) ∧
    (exampleSync none (some "listing failed") none).enumerate emptyWorld
      = (some "listing failed",
          { emptyWorld with ext := [{ exampleObject with name := "primary" },
                                    { exampleObject with name := "secondary" }] }) :=
  ⟨((syncEnumerator_enumerate_aborts (exampleSync (some "listing failed") none none)
      emptyWorld).1 "listing failed" _ rfl).1,
   ((syncEnumerator_enumerate_aborts (exampleSync none (some "listing failed") none)
      emptyWorld).2 _ "listing failed" _ rfl rfl).1⟩

/-- C3: when both traversals succeed, `enumerate` is the primary traversal with
`objectIndexer.store` and the filter chain, then the secondary traversal with the object
comparator and the same filter chain, started in the world the primary traversal returned,
then the finalizer, started in the world the secondary traversal returned; each runs once
and the result of `enumerate` is exactly the result of the finalizer. The comparator is
handed over only after the primary traversal has returned: whatever comparator is
installed, the secondary traversal that receives it starts in that same world. -/
theorem syncEnumerator_enumerate_order (e : syncEnumerator σ) (w w1 w2 : World σ)
    (h1 : e.primaryTraverser.traverse e.objectIndexer.store e.filters w = (none, w1))
    (h2 : e.secondaryTraverser.traverse e.objectComparator e.filters w1 = (none, w2)) :
    e.enumerate w = e.finalize w2 ∧
    ∀ (comparator : objectProcessor σ) (r : error × World σ),
      e.secondaryTraverser.traverse comparator e.filters w1 = r →
      ({ e with objectComparator := comparator }).enumerate w
        = if r.1 != none then r else e.finalize r.2 := by
  constructor
  · simp only [syncEnumerator.enumerate, h1, h2]
    rcases hf : e.finalize w2 with ⟨r, w3⟩
    cases r <;> simp <;> exact hf
  · intro comparator r hr
    rcases r with ⟨e2, w2'⟩
    cases e2 with
    | some err => simp [syncEnumerator.enumerate, h1, hr]
    | none =>
      simp only [syncEnumerator.enumerate, h1, hr]
      rcases hf : e.finalize w2' with ⟨r, w3⟩
      cases r <;> simp <;> exact hf

/-- Witness for C3: three marking components leave their marks once each, in the order
primary, secondary, finalize, and the error of the finalizer is the result. -/
theorem syncEnumerator_enumerate_order_witness :
    (exampleSync none none (some "cleanup failed")).enumerate emptyWorld
        = markingFinalizer (some "cleanup failed")
            { emptyWorld with ext := [{ exampleObject with name := "primary" },
                                      { exampleObject with name := "secondary" }] } ∧
    recordedNames ((exampleSync none none (some "cleanup failed")).enumerate emptyWorld)
        = ["primary", "secondary", "finalize"] ∧
    ((exampleSync none none (some "cleanup failed")).enumerate emptyWorld).1
        = some "cleanup failed" := by
  have h := (syncEnumerator_enumerate_order (exampleSync none none (some "cleanup failed"))
    emptyWorld _ _ rfl rfl).1
  exact ⟨h, by rw [h]; rfl, by rw [h]; rfl⟩

/-- C4: `copyEnumerator.enumerate` is one traversal with the dispatch processor and the
filter chain; when it returns a non-nil error that error is returned in the world the
traversal left, whatever the finalizer is (it is not invoked); otherwise the finalizer
runs once, in the world the traversal left, and its result (nil or not) is the result. -/
theorem copyEnumerator_enumerate_spec (e : copyEnumerator σ) (w : World σ) :
    (∀ (err : String) (w1 : World σ),
      e.traverser.traverse e.objectDispatcher e.filters w = (some err, w1) →
      e.enumerate w = (some err, w1) ∧
      ∀ (finalize : World σ → error × World σ),
        ({ e with finalize := finalize }).enumerate w = (some err, w1)) ∧
    (∀ (w1 : World σ),
      e.traverser.traverse e.objectDispatcher e.filters w = (none, w1) →
      e.enumerate w = e.finalize w1) := by
  constructor
  · intro err w1 h
    refine ⟨?_, ?_⟩
    · simp [copyEnumerator.enumerate, h]
    · intro finalize
      simp [copyEnumerator.enumerate, h]
  · intro w1 h
    simp [copyEnumerator.enumerate, h]

/-- Witness for C4: a failing traversal leaves only its own mark; a successful one is
followed by the finalizer, whose nil result is returned. -/
theorem copyEnumerator_enumerate_spec_witness :
    (exampleCopy (some "listing failed") none).enumerate emptyWorld
      = (some "listing failed",
          { emptyWorld with ext := [{ exampleObject with name := "traverse" }] }) ∧
    (exampleCopy none none).enumerate emptyWorld
      = (none, { emptyWorld with ext := [{ exampleObject with name := "traverse" },
                                         { exampleObject with name := "finalize" }] }) :=
  ⟨((copyEnumerator_enumerate_spec (exampleCopy (some "listing failed") none)
      emptyWorld).1 "listing failed" _ rfl).1,
   (copyEnumerator_enumerate_spec (exampleCopy none none) emptyWorld).2 _ rfl⟩

end enumerators

section factory

variable {σ Ctx Cred Pipe T : Type}

theorem listIndex_ge (substr l : List Char) : -1 ≤ listIndex substr l := by
  induction l with
  | nil => simp only [listIndex]; split <;> simp
  | cons c rest ih =>
    simp only [listIndex]
    split
    · simp
    · split
      · simp
      · omega

theorem listIndex_star (l : List Char) : 0 ≤ listIndex ['*'] l ↔ '*' ∈ l := by
  induction l with
  | nil => simp [listIndex]
  | cons c rest ih =>
    have hge := listIndex_ge ['*'] rest
    simp only [listIndex, List.mem_cons]
    by_cases hc : c = '*'
    · subst hc; simp [List.isPrefixOf]
    · have : ¬ ('*' = c) := fun h => hc h.symm
      simp only [List.isPrefixOf, beq_iff_eq, this, Bool.and_true, false_or]
      simp only [Bool.false_eq_true, if_false, ← ih]
      split <;> omega

/-- The test `strings.Contains(name, "*")` holds exactly when the name has a `*`. -/
theorem strings_Contains_star (name : String) :
    strings_Contains name "*" = true ↔ '*' ∈ name.toList := by
  simp only [strings_Contains, strings_Index, decide_eq_true_eq, ge_iff_le]
  exact listIndex_star name.toList

/-- C5: for each of Blob, File, BlobFS and S3, with no entry-list channel, a context and
a credential for which the pipeline initialises, and a locator that parses: when the
container, share, filesystem or bucket name of the locator is empty or contains `*` and
`recursive` is false, `initResourceTraverser` returns a nil traverser and the error
"account copies are an inherently recursive operation, and thus --recursive is required". -/
theorem initResourceTraverser_account_not_recursive (d : Deps σ Ctx Cred Pipe T)
    (resource : String) (location : Location) (c : Ctx) (cred : Cred)
    (followSymlinks : Option Bool) (incrementEnumerationCounter : enumerationCounter σ)
    (w : World σ) (pipe : Pipe) (u : URL) (name : String)
    (hkind : isRemoteKind location = true)
    (hpipe : d.initPipeline c location cred = (pipe, none))
    (hparse : d.url_Parse resource = (some u, none))
    (hname : topLevelIdentifier d location u = some name)
    (hwild : name = "" ∨ '*' ∈ name.toList) :
    (initResourceTraverser d resource location (some c) (some cred) followSymlinks none
      false incrementEnumerationCounter w).1
      = Outcome.returned none (some accountTraversalInherentlyRecursiveError) := by
  have hw : (name == "" || strings_Contains name "*") = true := by
    rcases hwild with h | h
    · simp [h]
    · simp [(strings_Contains_star name).mpr h]
  cases location <;> simp [isRemoteKind] at hkind
  · simp only [topLevelIdentifier, Option.some.injEq] at hname
    subst hname
    simp [initResourceTraverser, pipelineIfProvided, hpipe, initBlob, hparse, hw]
  · simp only [topLevelIdentifier, Option.some.injEq] at hname
    subst hname
    simp [initResourceTraverser, pipelineIfProvided, hpipe, initFile, hparse, hw]
  · simp only [topLevelIdentifier, Option.some.injEq] at hname
    subst hname
    simp [initResourceTraverser, pipelineIfProvided, hpipe, initBlobFS, hparse, hw]
  · simp only [topLevelIdentifier] at hname
    rcases hs3 : d.NewS3URLParts u with ⟨parts, e⟩
    rw [hs3] at hname
    cases e with
    | some e => simp at hname
    | none =>
      simp only [Option.some.injEq] at hname
      subst hname
      simp [initResourceTraverser, pipelineIfProvided, hpipe, initS3, hparse, hs3, hw]

/-- Witness for C5: an account locator (empty container name) and a wildcard container
name, for Blob and for S3, without `recursive`. -/
theorem initResourceTraverser_account_not_recursive_witness :
    (initResourceTraverser exampleDeps "/" Location.Blob (some ()) (some ()) none none
      false id emptyWorld).1
      = Outcome.returned none (some accountTraversalInherentlyRecursiveError) ∧
    (initResourceTraverser exampleDeps "/data*/dir" Location.S3 (some ()) (some ()) none none
      false id emptyWorld).1
      = Outcome.returned none (some accountTraversalInherentlyRecursiveError) :=
  ⟨initResourceTraverser_account_not_recursive exampleDeps "/" Location.Blob () () none id
      emptyWorld () (exampleURL "/") "" rfl rfl rfl (by decide) (Or.inl rfl),
   initResourceTraverser_account_not_recursive exampleDeps "/data*/dir" Location.S3 () ()
      none id emptyWorld () (exampleURL "/data*/dir") "data*" rfl rfl rfl (by decide)
      (Or.inr (by decide))⟩

/-- C6 does not hold as stated: the container name `data[12]` holds a character class,
`recursive` is true, and the factory builds the single-container blob traverser, not the
account traverser. -/
theorem initResourceTraverser_class_not_account :
    topLevelIdentifier exampleDeps Location.Blob (exampleURL "/data[12]/dir")
      = some "data[12]" ∧
    hasGlobWildcard "data[12]" = true ∧
    (initResourceTraverser exampleDeps "/data[12]/dir" Location.Blob (some ()) (some ())
      none none true id emptyWorld).1 = Outcome.returned (some "blob") none ∧
    afterConstructor (accountConstructor exampleDeps Location.Blob
      (exampleURL "/data[12]/dir") () () id) = Outcome.returned (some "blobAccount") none := by
  decide

/-- C6, amended: for each of Blob, File, BlobFS and S3, with `recursive` true, no
entry-list channel, a context and a credential for which the pipeline initialises, and a
locator that parses, `initResourceTraverser` calls the account-level constructor when the
container, share, filesystem or bucket name is empty or contains `*`, and the
single-container constructor otherwise (so also for a name whose only wildcards are `?`
or a character class); the traverser built is returned with a nil error. -/
theorem initResourceTraverser_account_iff_star (d : Deps σ Ctx Cred Pipe T)
    (resource : String) (location : Location) (c : Ctx) (cred : Cred)
    (followSymlinks : Option Bool) (incrementEnumerationCounter : enumerationCounter σ)
    (w : World σ) (pipe : Pipe) (u : URL) (name : String)
    (hkind : isRemoteKind location = true)
    (hpipe : d.initPipeline c location cred = (pipe, none))
    (hparse : d.url_Parse resource = (some u, none))
    (hname : topLevelIdentifier d location u = some name) :
    ((name = "" ∨ '*' ∈ name.toList) →
      (initResourceTraverser d resource location (some c) (some cred) followSymlinks none
        true incrementEnumerationCounter w).1
        = afterConstructor
            (accountConstructor d location u pipe c incrementEnumerationCounter)) ∧
    (¬ (name = "" ∨ '*' ∈ name.toList) →
      (initResourceTraverser d resource location (some c) (some cred) followSymlinks none
        true incrementEnumerationCounter w).1
        = afterConstructor
            (containerConstructor d location u pipe c true incrementEnumerationCounter)) := by
  have hw : (name == "" || strings_Contains name "*") = true ↔
      (name = "" ∨ '*' ∈ name.toList) := by
    simp [strings_Contains_star]
  have hw' : ¬ (name = "" ∨ '*' ∈ name.toList) →
      (name == "" || strings_Contains name "*") = false := by
    intro h
    cases hb : (name == "" || strings_Contains name "*")
    · rfl
    · exact absurd (hw.mp hb) h
  cases location <;> simp [isRemoteKind] at hkind
  · simp only [topLevelIdentifier, Option.some.injEq] at hname
    subst hname
    constructor
    · intro h
      simp [initResourceTraverser, pipelineIfProvided, hpipe, initBlob, hparse, hw.mpr h,
        accountConstructor, afterConstructor]
    · intro h
      simp [initResourceTraverser, pipelineIfProvided, hpipe, initBlob, hparse, hw' h,
        containerConstructor, afterConstructor]
  · simp only [topLevelIdentifier, Option.some.injEq] at hname
    subst hname
    constructor
    · intro h
      simp [initResourceTraverser, pipelineIfProvided, hpipe, initFile, hparse, hw.mpr h,
        accountConstructor, afterConstructor]
    · intro h
      simp [initResourceTraverser, pipelineIfProvided, hpipe, initFile, hparse, hw' h,
        containerConstructor, afterConstructor]
  · simp only [topLevelIdentifier, Option.some.injEq] at hname
    subst hname
    constructor
    · intro h
      simp [initResourceTraverser, pipelineIfProvided, hpipe, initBlobFS, hparse, hw.mpr h,
        accountConstructor, afterConstructor]
    · intro h
      simp [initResourceTraverser, pipelineIfProvided, hpipe, initBlobFS, hparse, hw' h,
        containerConstructor, afterConstructor]
  · simp only [topLevelIdentifier] at hname
    rcases hs3 : d.NewS3URLParts u with ⟨parts, e⟩
    rw [hs3] at hname
    cases e with
    | some e => simp at hname
    | none =>
      simp only [Option.some.injEq] at hname
      subst hname
      constructor
      · intro h
        rcases hc : d.newS3ServiceTraverser u c incrementEnumerationCounter with ⟨t, e⟩
        cases e <;>
          simp [initResourceTraverser, pipelineIfProvided, hpipe, initS3, hparse, hs3,
            hw.mpr h, accountConstructor, afterConstructor, hc]
      · intro h
        rcases hc : d.newS3Traverser u c true incrementEnumerationCounter with ⟨t, e⟩
        cases e <;>
          simp [initResourceTraverser, pipelineIfProvided, hpipe, initS3, hparse, hs3,
            hw' h, containerConstructor, afterConstructor, hc]

/-- Witness for C6, amended: `data*` gives the account traverser, `data[12]` and `data1`
the single-container traverser. -/
theorem initResourceTraverser_account_iff_star_witness :
    (initResourceTraverser exampleDeps "/data*/dir" Location.Blob (some ()) (some ()) none
      none true id emptyWorld).1 = Outcome.returned (some "blobAccount") none ∧
    (initResourceTraverser exampleDeps "/data[12]/dir" Location.Blob (some ()) (some ())
      none none true id emptyWorld).1 = Outcome.returned (some "blob") none ∧
    (initResourceTraverser exampleDeps "/data1" Location.S3 (some ()) (some ())
      none none true id emptyWorld).1 = Outcome.returned (some "s3") none :=
  ⟨(initResourceTraverser_account_iff_star exampleDeps "/data*/dir" Location.Blob () ()
      none id emptyWorld () (exampleURL "/data*/dir") "data*" rfl rfl rfl (by decide)).1
      (Or.inr (by decide)),
   (initResourceTraverser_account_iff_star exampleDeps "/data[12]/dir" Location.Blob () ()
      none id emptyWorld () (exampleURL "/data[12]/dir") "data[12]" rfl rfl rfl
      (by decide)).2 (by decide),
   (initResourceTraverser_account_iff_star exampleDeps "/data1" Location.S3 () ()
      none id emptyWorld () (exampleURL "/data1") "data1" rfl rfl rfl (by decide)).2
      (by decide)⟩

/-- C7: with an entry-list channel, for every kind, recursion flag and locator the world
is left as it was (no notice, no per-kind resolution) and the call ends in one of these
ways only: a failing pipeline initialisation (possible when both the context and the
credential are given) returns its error; otherwise, for a remote kind, a failing split of
the access token returns its error and a successful split returns the list traverser
built on the locator with the token split off, with the token; otherwise (kind not
remote) the list traverser built on the locator (cleaned for Local) is returned. -/
theorem initResourceTraverser_list_channel (d : Deps σ Ctx Cred Pipe T)
    (resource : String) (location : Location) (ctx : Option Ctx) (credential : Option Cred)
    (followSymlinks : Option Bool) (ch : List String) (recursive : Bool)
    (incrementEnumerationCounter : enumerationCounter σ) (w : World σ) :
    (initResourceTraverser d resource location ctx credential followSymlinks (some ch)
      recursive incrementEnumerationCounter w).2 = w ∧
    (∀ (c : Ctx) (cred : Cred) (pp : Pipe) (err : String),
      ctx = some c → credential = some cred →
      d.initPipeline c location cred = (pp, some err) →
      (initResourceTraverser d resource location ctx credential followSymlinks (some ch)
        recursive incrementEnumerationCounter w).1 = Outcome.returned none (some err)) ∧
    ((∀ (c : Ctx) (cred : Cred), ctx = some c → credential = some cred →
        (d.initPipeline c location cred).2 = none) →
      (d.IsRemote location = true →
        ∀ (r sas : String),
          (∀ (err : String),
            d.SplitAuthTokenFromResource
              (if location = Location.Local then d.cleanLocalPath resource else resource)
              location = (r, sas, some err) →
            (initResourceTraverser d resource location ctx credential followSymlinks
              (some ch) recursive incrementEnumerationCounter w).1
              = Outcome.returned none (some err)) ∧
          (d.SplitAuthTokenFromResource
              (if location = Location.Local then d.cleanLocalPath resource else resource)
              location = (r, sas, none) →
            (initResourceTraverser d resource location ctx credential followSymlinks
              (some ch) recursive incrementEnumerationCounter w).1
              = Outcome.returned
                  (d.newListTraverser r sas location credential ctx recursive
                    (followSymlinks.getD false) ch incrementEnumerationCounter) none)) ∧
      (d.IsRemote location = false →
        (initResourceTraverser d resource location ctx credential followSymlinks (some ch)
          recursive incrementEnumerationCounter w).1
          = Outcome.returned
              (d.newListTraverser
                (if location = Location.Local then d.cleanLocalPath resource else resource)
                "" location credential ctx recursive (followSymlinks.getD false) ch
                incrementEnumerationCounter) none)) := by
  have hfollow : (match followSymlinks with | some b => b | none => false)
      = followSymlinks.getD false := by
    cases followSymlinks <;> rfl
  refine ⟨?_, ?_, ?_⟩
  · unfold initResourceTraverser
    simp only
    split <;> rfl
  · intro c cred pp err hc hcred hp
    subst hc hcred
    simp [initResourceTraverser, pipelineIfProvided, hp]
  · intro hok
    have hpipe : (pipelineIfProvided d location ctx credential).2 = none := by
      unfold pipelineIfProvided
      split
      · rename_i c cred
        have h := hok c cred rfl rfl
        rcases hp : d.initPipeline c location cred with ⟨pp, e⟩
        rw [hp] at h
        simp only at h
        subst h
        rfl
      · rfl
    rcases hpp : pipelineIfProvided d location ctx credential with ⟨p, e⟩
    rw [hpp] at hpipe
    simp only at hpipe
    subst hpipe
    refine ⟨?_, ?_⟩
    · intro hrem r sas
      refine ⟨?_, ?_⟩
      · intro err hsplit
        simp [initResourceTraverser, hpp, initFromList, hrem, hsplit]
      · intro hsplit
        simp [initResourceTraverser, hpp, initFromList, hrem, hsplit, hfollow]
    · intro hrem
      simp [initResourceTraverser, hpp, initFromList, hrem, hfollow]

/-- Witness for C7: with an entry list the stand-in factory returns the list traverser
for a remote kind, for Local and for an unrecognised kind. -/
theorem initResourceTraverser_list_channel_witness :
    (initResourceTraverser exampleDeps "/data*/dir" Location.Blob (some ()) (some ()) none
      (some ["a.txt"]) false id emptyWorld).1 = Outcome.returned (some "list") none ∧
    (initResourceTraverser exampleDeps "/data*/dir" (Location.other 0) none none none
      (some ["a.txt"]) false id emptyWorld).1 = Outcome.returned (some "list") none :=
  ⟨((initResourceTraverser_list_channel exampleDeps "/data*/dir" Location.Blob (some ())
      (some ()) none ["a.txt"] false id emptyWorld).2.2
        (fun _ _ _ _ => rfl)).1 rfl "/data*/dir" "" |>.2 rfl,
   ((initResourceTraverser_list_channel exampleDeps "/data*/dir" (Location.other 0) none
      none none ["a.txt"] false id emptyWorld).2.2
        (fun _ _ _ _ => rfl)).2 rfl⟩

/-- C8 does not hold as stated: S3 requested with a context and a nil credential, on a
locator that parses, is resolved to a traverser with a nil error. -/
theorem initResourceTraverser_s3_nil_credential :
    (initResourceTraverser exampleDeps "/bucket/dir" Location.S3 (some ()) none none none
      false id emptyWorld).1 = Outcome.returned (some "s3") none := by
  decide

/-- C8, amended: with no entry-list channel, a kind that is none of Local, Benchmark,
Blob, File, BlobFS, S3 gives a nil traverser and a non-nil error; and on a locator that
parses, each of Blob, File, BlobFS, S3 requested with a nil context, and each of Blob,
File, BlobFS requested with a nil credential, gives a nil traverser and a non-nil error.
S3 requested with a context and a nil credential is resolved normally: on a locator whose
URL and S3 parts parse, the outcome is that of the S3 constructor for the scope, the
service traverser for an empty or `*`-holding bucket name with `recursive` (the
recursive-required error without it) and the bucket traverser otherwise, in the world
after the https recommendation; so a traverser the constructor returns with a nil error
is returned with a nil error. -/
theorem initResourceTraverser_configuration_errors (d : Deps σ Ctx Cred Pipe T)
    (resource : String) (location : Location) (ctx : Option Ctx) (credential : Option Cred)
    (followSymlinks : Option Bool) (recursive : Bool)
    (incrementEnumerationCounter : enumerationCounter σ) (w : World σ) :
    ((location ≠ Location.Local ∧ location ≠ Location.Benchmark ∧ location ≠ Location.Blob ∧
        location ≠ Location.File ∧ location ≠ Location.BlobFS ∧ location ≠ Location.S3) →
      ∃ err : String,
        (initResourceTraverser d resource location ctx credential followSymlinks none
          recursive incrementEnumerationCounter w).1 = Outcome.returned none (some err)) ∧
    (∀ u : URL, isRemoteKind location = true → d.url_Parse resource = (some u, none) →
      (ctx = none ∨ (credential = none ∧ location ≠ Location.S3)) →
      ∃ err : String,
        (initResourceTraverser d resource location ctx credential followSymlinks none
          recursive incrementEnumerationCounter w).1 = Outcome.returned none (some err)) ∧
    (∀ (u : URL) (parts : S3URLParts) (c : Ctx), location = Location.S3 → ctx = some c →
      credential = none → d.url_Parse resource = (some u, none) →
      d.NewS3URLParts u = (parts, none) →
      initResourceTraverser d resource location ctx credential followSymlinks none
          recursive incrementEnumerationCounter w
        = ((if parts.BucketName == "" || strings_Contains parts.BucketName "*" then
              (if recursive then
                afterConstructor (d.newS3ServiceTraverser u c incrementEnumerationCounter)
               else Outcome.returned none (some accountTraversalInherentlyRecursiveError))
            else
              afterConstructor
                (d.newS3Traverser u c recursive incrementEnumerationCounter)),
           recommendHttpsIfNecessary u w) ∧
      (∀ t : T,
        (if parts.BucketName == "" || strings_Contains parts.BucketName "*" then
            recursive = true ∧
              d.newS3ServiceTraverser u c incrementEnumerationCounter = (some t, none)
          else d.newS3Traverser u c recursive incrementEnumerationCounter = (some t, none)) →
        (initResourceTraverser d resource location ctx credential followSymlinks none
          recursive incrementEnumerationCounter w).1 = Outcome.returned (some t) none)) := by
  refine ⟨?_, ?_, ?_⟩
  · rintro ⟨h1, h2, h3, h4, h5, h6⟩
    cases location with
    | other n =>
      rcases hpp : pipelineIfProvided d (Location.other n) ctx credential with ⟨p, e⟩
      cases e with
      | some err => exact ⟨err, by simp [initResourceTraverser, hpp]⟩
      | none =>
        exact ⟨"could not choose a traverser from currently available traversers",
          by simp [initResourceTraverser, hpp]⟩
    | Local => exact absurd rfl h1
    | Benchmark => exact absurd rfl h2
    | Blob => exact absurd rfl h3
    | File => exact absurd rfl h4
    | BlobFS => exact absurd rfl h5
    | S3 => exact absurd rfl h6
  · intro u hkind hparse hnil
    have hpp : pipelineIfProvided d location ctx credential = (none, none) := by
      rcases hnil with h | ⟨h, _⟩
      · subst h; cases credential <;> rfl
      · subst h; cases ctx <;> rfl
    cases location <;> simp [isRemoteKind] at hkind
    · refine ⟨"a valid credential and context must be supplied to create a blob traverser", ?_⟩
      simp only [initResourceTraverser, hpp, reduceCtorEq, if_false, initBlob, hparse]
    · refine ⟨"a valid credential and context must be supplied to create a file traverser", ?_⟩
      simp only [initResourceTraverser, hpp, reduceCtorEq, if_false, initFile, hparse]
    · refine ⟨"a valid credential and context must be supplied to create a blobFS traverser", ?_⟩
      simp only [initResourceTraverser, hpp, reduceCtorEq, if_false, initBlobFS, hparse]
    · have hctx : ctx = none := by
        rcases hnil with h | ⟨_, h⟩
        · exact h
        · exact absurd rfl h
      subst hctx
      rcases hs3 : d.NewS3URLParts u with ⟨parts, e⟩
      cases e with
      | some err => exact ⟨err, by simp [initResourceTraverser, hpp, initS3, hparse, hs3]⟩
      | none =>
        exact ⟨"a valid context must be supplied to create a S3 traverser",
          by simp [initResourceTraverser, hpp, initS3, hparse, hs3]⟩
  · intro u parts c hloc hctx hcred hparse hparts
    subst hloc hctx hcred
    have heq : initResourceTraverser d resource Location.S3 (some c) none followSymlinks
        none recursive incrementEnumerationCounter w
        = ((if parts.BucketName == "" || strings_Contains parts.BucketName "*" then
              (if recursive then
                afterConstructor (d.newS3ServiceTraverser u c incrementEnumerationCounter)
               else Outcome.returned none (some accountTraversalInherentlyRecursiveError))
            else
              afterConstructor
                (d.newS3Traverser u c recursive incrementEnumerationCounter)),
           recommendHttpsIfNecessary u w) := by
      simp only [initResourceTraverser, pipelineIfProvided, reduceCtorEq, if_false, initS3,
        hparse, hparts]
      cases hb : (parts.BucketName == "" || strings_Contains parts.BucketName "*")
      · simp only [Bool.false_eq_true, if_false]
        rcases hc : d.newS3Traverser u c recursive incrementEnumerationCounter with ⟨o, e⟩
        cases e <;> rfl
      · cases recursive
        · rfl
        · simp only [if_true, Bool.not_true, Bool.false_eq_true, if_false]
          rcases hc : d.newS3ServiceTraverser u c incrementEnumerationCounter with ⟨o, e⟩
          cases e <;> rfl
    refine ⟨heq, ?_⟩
    intro t ht
    rw [heq]
    cases hb : (parts.BucketName == "" || strings_Contains parts.BucketName "*")
    · rw [hb] at ht
      simp only [Bool.false_eq_true, if_false] at ht ⊢
      rw [ht]
      rfl
    · rw [hb] at ht
      simp only [if_true] at ht ⊢
      rw [ht.1, ht.2]
      rfl

/-- Witness for C8, amended: an unrecognised kind, Blob without a credential, and S3
without a credential, which gives the bucket traverser. -/
theorem initResourceTraverser_configuration_errors_witness :
    (∃ err : String,
      (initResourceTraverser exampleDeps "/data/dir" (Location.other 0) none none none none
        true id emptyWorld).1 = Outcome.returned none (some err)) ∧
    (∃ err : String,
      (initResourceTraverser exampleDeps "/data/dir" Location.Blob (some ()) none none none
        true id emptyWorld).1 = Outcome.returned none (some err)) ∧
    (initResourceTraverser exampleDeps "/data/dir" Location.S3 (some ()) none none none
      true id emptyWorld).1 = Outcome.returned (some "s3") none :=
  ⟨(initResourceTraverser_configuration_errors exampleDeps "/data/dir" (Location.other 0)
      none none none true id emptyWorld).1 (by decide),
   (initResourceTraverser_configuration_errors exampleDeps "/data/dir" Location.Blob
      (some ()) none none true id emptyWorld).2.1 (exampleURL "/data/dir") rfl rfl
      (Or.inr ⟨rfl, by decide⟩),
   ((initResourceTraverser_configuration_errors exampleDeps "/data/dir" Location.S3
      (some ()) none none true id emptyWorld).2.2 (exampleURL "/data/dir")
      (exampleDeps.NewS3URLParts (exampleURL "/data/dir")).1 () rfl rfl rfl rfl rfl).2
      "s3" (by decide)⟩

theorem wellFormed_error (e : String) :
    (Outcome.returned (none : Option T) (some e)).wellFormed := by
  intro output err h
  cases h
  exact Or.inr ⟨rfl, by simp⟩

theorem wellFormed_panicked (msg : String) : (Outcome.panicked msg : Outcome T).wellFormed := by
  intro output err h
  cases h

theorem wellFormed_sanityCheck (x : Option T) : (sanityCheck x).wellFormed := by
  intro output err h
  cases x with
  | none => simp [sanityCheck] at h
  | some t =>
    simp only [sanityCheck, Option.isNone_some, Bool.false_eq_true, if_false,
      Outcome.returned.injEq] at h
    rcases h with ⟨h1, h2⟩
    subst h1 h2
    exact Or.inl ⟨by simp, rfl⟩

theorem wellFormed_initBlob (d : Deps σ Ctx Cred Pipe T) (resource : String)
    (ctx : Option Ctx) (p : Option Pipe) (recursive : Bool) (counter : enumerationCounter σ)
    (w : World σ) : (initBlob d resource ctx p recursive counter w).1.wellFormed := by
  simp only [initBlob]
  repeat' split
  all_goals first
    | exact wellFormed_error _
    | exact wellFormed_sanityCheck _
    | exact wellFormed_panicked _

theorem wellFormed_initFile (d : Deps σ Ctx Cred Pipe T) (resource : String)
    (ctx : Option Ctx) (p : Option Pipe) (recursive : Bool) (counter : enumerationCounter σ)
    (w : World σ) : (initFile d resource ctx p recursive counter w).1.wellFormed := by
  simp only [initFile]
  repeat' split
  all_goals first
    | exact wellFormed_error _
    | exact wellFormed_sanityCheck _
    | exact wellFormed_panicked _

theorem wellFormed_initBlobFS (d : Deps σ Ctx Cred Pipe T) (resource : String)
    (ctx : Option Ctx) (credential : Option Cred) (p : Option Pipe) (recursive : Bool)
    (counter : enumerationCounter σ) (w : World σ) :
    (initBlobFS d resource ctx credential p recursive counter w).1.wellFormed := by
  simp only [initBlobFS]
  repeat' split
  all_goals first
    | exact wellFormed_error _
    | exact wellFormed_sanityCheck _
    | exact wellFormed_panicked _

theorem wellFormed_initS3 (d : Deps σ Ctx Cred Pipe T) (resource : String)
    (ctx : Option Ctx) (recursive : Bool) (counter : enumerationCounter σ)
    (w : World σ) : (initS3 d resource ctx recursive counter w).1.wellFormed := by
  simp only [initS3]
  repeat' split
  all_goals first
    | exact wellFormed_error _
    | exact wellFormed_sanityCheck _
    | exact wellFormed_panicked _

theorem wellFormed_initLocal (d : Deps σ Ctx Cred Pipe T) (resource : String)
    (location : Location) (recursive toFollow : Bool) (counter : enumerationCounter σ) :
    (initLocal d resource location recursive toFollow counter).wellFormed := by
  simp only [initLocal]
  repeat' split
  all_goals first
    | exact wellFormed_error _
    | exact wellFormed_sanityCheck _

theorem wellFormed_initBenchmark (d : Deps σ Ctx Cred Pipe T) (resource : String)
    (counter : enumerationCounter σ) : (initBenchmark d resource counter).wellFormed := by
  simp only [initBenchmark]
  repeat' split
  all_goals first
    | exact wellFormed_error _
    | exact wellFormed_sanityCheck _

/-- Without an entry list every return of the factory has exactly one non-nil value. -/
theorem wellFormed_initResourceTraverser (d : Deps σ Ctx Cred Pipe T) (resource : String)
    (location : Location) (ctx : Option Ctx) (credential : Option Cred)
    (followSymlinks : Option Bool) (recursive : Bool) (counter : enumerationCounter σ)
    (w : World σ) :
    (initResourceTraverser d resource location ctx credential followSymlinks none recursive
      counter w).1.wellFormed := by
  simp only [initResourceTraverser]
  split
  · exact wellFormed_error _
  · split
    · exact wellFormed_initLocal _ _ _ _ _ _
    · exact wellFormed_initBenchmark _ _ _
    · exact wellFormed_initBlob _ _ _ _ _ _ _
    · exact wellFormed_initFile _ _ _ _ _ _ _
    · exact wellFormed_initBlobFS _ _ _ _ _ _ _ _
    · exact wellFormed_initS3 _ _ _ _ _ _
    · exact wellFormed_error _

theorem settled_error (e : String) :
    (Outcome.returned (none : Option T) (some e)).settled :=
  Or.inr (Or.inl ⟨e, rfl⟩)

theorem settled_nilDereference : (nilDereference : Outcome T).settled :=
  Or.inr (Or.inr rfl)

theorem settled_returned (x : Option T) (h : x ≠ none) :
    (Outcome.returned x none).settled := by
  cases x with
  | none => exact absurd rfl h
  | some t => exact Or.inl ⟨t, rfl⟩

theorem settled_sanityCheck (x : Option T) (h : x ≠ none) : (sanityCheck x).settled := by
  cases x with
  | none => exact absurd rfl h
  | some t => exact Or.inl ⟨t, by simp [sanityCheck]⟩

theorem settled_wellFormed (o : Outcome T) (h : o.settled) : o.wellFormed := by
  intro output err ho
  rcases h with ⟨t, ht⟩ | ⟨e, he⟩ | hn
  · rw [ht] at ho
    cases ho
    exact Or.inl ⟨by simp, rfl⟩
  · rw [he] at ho
    cases ho
    exact Or.inr ⟨rfl, by simp⟩
  · rw [hn] at ho
    cases ho

theorem settled_not_sanityPanic (o : Outcome T) (h : o.settled) :
    o ≠ Outcome.panicked sanityCheckPanic := by
  intro ho
  rcases h with ⟨t, ht⟩ | ⟨e, he⟩ | hn
  · rw [ht] at ho; cases ho
  · rw [he] at ho; cases ho
  · rw [hn] at ho
    revert ho
    simp only [nilDereference, sanityCheckPanic, Outcome.panicked.injEq]
    decide

/-- With constructors that never return nil, every outcome of the factory is a return of
exactly one non-nil value or the panic of a nil dereference. -/
theorem settled_initResourceTraverser (d : Deps σ Ctx Cred Pipe T)
    (hd : constructorsNonNil d) (resource : String)
    (location : Location) (ctx : Option Ctx) (credential : Option Cred)
    (followSymlinks : Option Bool) (listofFilesChannel : Option (List String))
    (recursive : Bool) (counter : enumerationCounter σ) (w : World σ) :
    (initResourceTraverser d resource location ctx credential followSymlinks
      listofFilesChannel recursive counter w).1.settled := by
  obtain ⟨hList, hLocal, hBench, hBA, hB, hFA, hF, hBFA, hBF, hS3S, hS3⟩ := hd
  simp only [initResourceTraverser, initFromList, initLocal, initBenchmark, initBlob,
    initFile, initBlobFS, initS3]
  repeat' split
  all_goals first
    | exact settled_error _
    | exact settled_nilDereference
    | exact settled_returned _ (hList _ _ _ _ _ _ _ _ _)
    | exact settled_sanityCheck _ (hList _ _ _ _ _ _ _ _ _)
    | exact settled_sanityCheck _ (hLocal _ _ _ _)
    | exact settled_sanityCheck _ (hBA _ _ _ _)
    | exact settled_sanityCheck _ (hB _ _ _ _ _)
    | exact settled_sanityCheck _ (hFA _ _ _ _)
    | exact settled_sanityCheck _ (hF _ _ _ _ _)
    | exact settled_sanityCheck _ (hBFA _ _ _ _)
    | exact settled_sanityCheck _ (hBF _ _ _ _ _)
    | exact settled_sanityCheck _ (hBench _ _ _ (by assumption))
    | exact settled_sanityCheck _ (hS3S _ _ _ _ (by assumption))
    | exact settled_sanityCheck _ (hS3 _ _ _ _ _ (by assumption))

/-- With an entry list and a list-traverser constructor that does not return nil, every
return of the factory has exactly one non-nil value. -/
theorem wellFormed_initResourceTraverser_list (d : Deps σ Ctx Cred Pipe T)
    (hl : listTraverserNonNil d) (resource : String)
    (location : Location) (ctx : Option Ctx) (credential : Option Cred)
    (followSymlinks : Option Bool) (ch : List String)
    (recursive : Bool) (counter : enumerationCounter σ) (w : World σ) :
    (initResourceTraverser d resource location ctx credential followSymlinks (some ch)
      recursive counter w).1.wellFormed := by
  have hret : ∀ x : Option T, x ≠ none → (Outcome.returned x none).wellFormed := by
    intro x hx output err h
    cases h
    exact Or.inl ⟨hx, rfl⟩
  simp only [initResourceTraverser, initFromList]
  repeat' split
  all_goals first
    | exact wellFormed_error _
    | exact hret _ (hl _ _ _ _ _ _ _ _ _)

/-- C9: every return of `initResourceTraverser` carries exactly one non-nil value among
traverser and error. Without an entry list this holds on every input, whatever the
constructors return: a nil traverser with a nil error is stopped by the final sanity
check. With an entry list the traverser returned is what `newListTraverser` gave, a
constructor without error result, so it holds as soon as that constructor returns a
non-nil traverser, which is what the claim assumes of the constructors. And when every
constructor returns a non-nil traverser whenever it returns no error, every return has
exactly one non-nil value, the panic of the final sanity check cannot happen, and the
call does return provided `url.Parse` gives a URL whenever it gives no error. -/
theorem initResourceTraverser_one_non_nil (d : Deps σ Ctx Cred Pipe T) (resource : String)
    (location : Location) (ctx : Option Ctx) (credential : Option Cred)
    (followSymlinks : Option Bool) (listofFilesChannel : Option (List String))
    (recursive : Bool) (incrementEnumerationCounter : enumerationCounter σ) (w : World σ) :
    (listofFilesChannel = none →
      ∀ output err,
        (initResourceTraverser d resource location ctx credential followSymlinks
          listofFilesChannel recursive incrementEnumerationCounter w).1
          = Outcome.returned output err →
        exactlyOneNonNil output err) ∧
    (listTraverserNonNil d →
      ∀ output err,
        (initResourceTraverser d resource location ctx credential followSymlinks
          listofFilesChannel recursive incrementEnumerationCounter w).1
          = Outcome.returned output err →
        exactlyOneNonNil output err) ∧
    (constructorsNonNil d →
      (∀ output err,
        (initResourceTraverser d resource location ctx credential followSymlinks
          listofFilesChannel recursive incrementEnumerationCounter w).1
          = Outcome.returned output err →
        exactlyOneNonNil output err) ∧
      (initResourceTraverser d resource location ctx credential followSymlinks
        listofFilesChannel recursive incrementEnumerationCounter w).1
        ≠ Outcome.panicked sanityCheckPanic ∧
      ((∀ r, d.url_Parse r ≠ (none, none)) →
        ∃ output err,
          (initResourceTraverser d resource location ctx credential followSymlinks
            listofFilesChannel recursive incrementEnumerationCounter w).1
            = Outcome.returned output err)) := by
  refine ⟨?_, ?_, ?_⟩
  · intro hch
    subst hch
    exact wellFormed_initResourceTraverser d resource location ctx credential
      followSymlinks recursive incrementEnumerationCounter w
  · intro hl
    cases listofFilesChannel with
    | none =>
      exact wellFormed_initResourceTraverser d resource location ctx credential
        followSymlinks recursive incrementEnumerationCounter w
    | some ch =>
      exact wellFormed_initResourceTraverser_list d hl resource location ctx credential
        followSymlinks ch recursive incrementEnumerationCounter w
  · intro hd
    have hs := settled_initResourceTraverser d hd resource location ctx credential
      followSymlinks listofFilesChannel recursive incrementEnumerationCounter w
    refine ⟨settled_wellFormed _ hs, settled_not_sanityPanic _ hs, ?_⟩
    intro hparse
    rcases hs with ⟨t, ht⟩ | ⟨e, he⟩ | hn
    · exact ⟨_, _, ht⟩
    · exact ⟨_, _, he⟩
    · exfalso
      revert hn
      simp only [initResourceTraverser, initFromList, initLocal, initBenchmark, initBlob,
        initFile, initBlobFS, initS3, sanityCheck, nilDereference]
      repeat' split
      all_goals first
        | (intro h; cases h; done)
        | (intro _; exact hparse _ (by assumption))
        | (intro h; revert h; simp only [sanityCheckPanic, Outcome.panicked.injEq]; decide)

theorem exampleDeps_constructorsNonNil : constructorsNonNil exampleDeps := by
  simp [constructorsNonNil, exampleDeps]

/-- Witness for C9: the stand-in factory, whose constructors never return nil, returns
the blob traverser with a nil error without an entry list, the list traverser with a nil
error with one, and does not reach the sanity panic. -/
theorem initResourceTraverser_one_non_nil_witness :
    exactlyOneNonNil (some "blob") (none : error) ∧
    exactlyOneNonNil (some "list") (none : error) ∧
    (initResourceTraverser exampleDeps "/data/dir" Location.Blob (some ()) (some ()) none
      (some ["a.txt"]) true id emptyWorld).1 ≠ Outcome.panicked sanityCheckPanic :=
  ⟨(initResourceTraverser_one_non_nil exampleDeps "/data/dir" Location.Blob (some ())
      (some ()) none none true id emptyWorld).1 rfl (some "blob") none (by decide),
   (initResourceTraverser_one_non_nil exampleDeps "/data/dir" Location.Blob (some ())
      (some ()) none (some ["a.txt"]) true id emptyWorld).2.1
        exampleDeps_constructorsNonNil.1 (some "list") none (by decide),
   ((initResourceTraverser_one_non_nil exampleDeps "/data/dir" Location.Blob (some ())
      (some ()) none (some ["a.txt"]) true id emptyWorld).2.2
        exampleDeps_constructorsNonNil).2.1⟩

end factory

section account

theorem passedFilters_recording (filters : slice objectFilter) (o : storedObject)
    (f : storedObject → storedObject) (p : objectProcessor (List storedObject))
    (hp : ∀ o w, p o w = (none, { w with ext := w.ext ++ [f o] }))
    (w : World (List storedObject)) :
    (processIfPassedFilters filters o p w).1 = none ∧
    (processIfPassedFilters filters o p w).2.ext
      = w.ext ++ (if filters.elems.all (fun g => g.doesPass o) then [f o] else []) := by
  have h1 := passedFilters_fst filters o w
  have h2 := (passedFilters_frame filters o w).1
  unfold processIfPassedFilters
  rcases hpf : passedFilters filters o w with ⟨b, w1⟩
  rw [hpf] at h1 h2
  simp only at h1 h2
  cases b with
  | true => simp [hp, ← h1, h2]
  | false => simp [← h1, h2]

theorem containerTraverse_recording (filters : slice objectFilter)
    (f : storedObject → storedObject) (p : objectProcessor (List storedObject))
    (hp : ∀ o w, p o w = (none, { w with ext := w.ext ++ [f o] }))
    (entries : List storedObject) (w : World (List storedObject)) :
    (containerTraverse p filters entries w).1 = none ∧
    (containerTraverse p filters entries w).2.ext
      = w.ext ++ (entries.filter
          (fun o => filters.elems.all (fun g => g.doesPass o))).map f := by
  induction entries generalizing w with
  | nil => simp [containerTraverse]
  | cons o rest ih =>
    have h := passedFilters_recording filters o f p hp w
    rcases hq : processIfPassedFilters filters o p w with ⟨e, w1⟩
    rw [hq] at h
    simp only at h
    obtain ⟨he, hw1⟩ := h
    subst he
    have ih1 := ih w1
    simp only [containerTraverse, hq, bne_self_eq_false, Bool.false_eq_true, if_false]
    refine ⟨ih1.1, ?_⟩
    rw [ih1.2, hw1]
    by_cases hpass : filters.elems.all (fun g => g.doesPass o) = true
    · simp [List.filter_cons, hpass]
    · simp [List.filter_cons, hpass]

theorem singleTraversalOutput_eq (filters : slice objectFilter) (entries : List storedObject) :
    singleTraversalOutput filters entries
      = entries.filter (fun o => filters.elems.all (fun g => g.doesPass o)) := by
  have h := (containerTraverse_recording filters id recordingProcessor (fun _ _ => rfl)
    entries { glcmOutput := [], httpsRecommendationOnce := false, ext := [] }).2
  simpa [singleTraversalOutput, newContainerTraverser] using h

theorem accountTraverseLoop_recording (contents : String → List storedObject)
    (filters : slice objectFilter) (cList : List String) (w : World (List storedObject)) :
    (accountTraverseLoop (fun c => newContainerTraverser (contents c)) recordingProcessor
      filters cList w).1 = none ∧
    (accountTraverseLoop (fun c => newContainerTraverser (contents c)) recordingProcessor
      filters cList w).2.ext
      = w.ext ++ cList.flatMap (fun c =>
          (singleTraversalOutput filters (contents c)).map (withContainerName c)) := by
  induction cList generalizing w with
  | nil => simp [accountTraverseLoop]
  | cons c rest ih =>
    have h := containerTraverse_recording filters (withContainerName c)
      (initContainerDecorator c recordingProcessor) (fun _ _ => rfl) (contents c) w
    rcases hq : containerTraverse (initContainerDecorator c recordingProcessor) filters
      (contents c) w with ⟨e, w1⟩
    rw [hq] at h
    simp only at h
    obtain ⟨he, hw1⟩ := h
    subst he
    have ih1 := ih w1
    simp only [accountTraverseLoop, newContainerTraverser, hq, bne_self_eq_false,
      Bool.false_eq_true, if_false]
    simp only [newContainerTraverser] at ih1
    refine ⟨ih1.1, ?_⟩
    rw [ih1.2, hw1, List.flatMap_cons, singleTraversalOutput_eq, List.append_assoc]

/-- With the empty container identifier nothing is filtered and the matcher is not asked. -/
theorem listContainers_empty (filepath_Match : String → String → Bool × error)
    (containers : List String) :
    listContainers filepath_Match "" containers = (containers, none) := by
  induction containers with
  | nil => rfl
  | cons v rest ih => simp [listContainers, ih]

theorem listContainers_ok (filepath_Match : String → String → Bool × error)
    (pattern : String) (containers : List String)
    (h : (listContainers filepath_Match pattern containers).2 = none) :
    (listContainers filepath_Match pattern containers).1
      = traversedContainers filepath_Match pattern containers := by
  by_cases hp : pattern = ""
  · subst hp
    simp [listContainers_empty, traversedContainers]
  · simp only [traversedContainers, if_neg hp]
    induction containers with
    | nil => rfl
    | cons v rest ih =>
      simp only [listContainers, ne_eq, hp, not_false_eq_true, if_true] at h ⊢
      rcases hm : containerNameMatchesPattern filepath_Match v pattern with ⟨ok, e⟩
      rw [hm] at h
      cases e with
      | some err => simp at h
      | none =>
        rcases hr : listContainers filepath_Match pattern rest with ⟨cList, e2⟩
        rw [hr] at h ih
        cases e2 with
        | some err => simp at h
        | none =>
          have ih1 := ih rfl
          simp only at ih1 ⊢
          subst ih1
          cases ok <;> simp [matchingContainers, List.filter_cons, hm]

/-- C10 does not hold as stated: with the empty pattern, the account scope without a
pattern, the account traversal over `data1`, `data2`, `other` delivers the two objects of
each of the three containers, while no container name matches the empty pattern under
`containerNameMatchesPattern`, so the union over the matching containers is empty. -/
theorem accountTraverse_empty_pattern_all :
    accountTraversalOutput filepath_Match ["data1", "data2", "other"] "" exampleContents none
      = (none, (["data1", "data2", "other"].flatMap (fun c =>
          (singleTraversalOutput none (exampleContents c)).map (withContainerName c)))) ∧
    (accountTraversalOutput filepath_Match ["data1", "data2", "other"] "" exampleContents
      none).2.length = 6 ∧
    matchingContainers filepath_Match "" ["data1", "data2", "other"] = [] ∧
    (accountTraversalOutput filepath_Match ["data1", "data2", "other"] "" exampleContents
      none).2
      ≠ (matchingContainers filepath_Match "" ["data1", "data2", "other"]).flatMap
          (fun c => (singleTraversalOutput none (exampleContents c)).map
            (withContainerName c)) := by
  decide

/-- C10, amended: for every listing of containers, every pattern and every content of the
containers, and whatever function stands for `filepath.Match`, an account traversal that returns no error delivers to the processor exactly
the objects that the single-container traversals of the containers it is to visit
deliver, container after container, each with `containerName` set to the name of its
container; the containers to visit are those whose name matches the pattern
(`containerNameMatchesPattern` returns true) when there is a pattern, and all the listed
containers when the pattern is empty, in which case no error of the matcher can arise. In
particular, when the `k` containers to visit all hold the same objects, `k * n` objects
are delivered, `n` being the number a single traversal delivers (all the objects when the
filter chain is nil); and every delivered object carries the name of a visited container
and has the `relativePath` and `name` of an object delivered by the single traversal of
that container. -/
theorem accountTraverse_delivers_union (filepath_Match : String → String → Bool × error)
    (containers : List String) (pattern : String) (contents : String → List storedObject)
    (filters : slice objectFilter)
    (hok : (accountTraversalOutput filepath_Match containers pattern contents filters).1
      = none) :
    (accountTraversalOutput filepath_Match containers pattern contents filters).2
      = (traversedContainers filepath_Match pattern containers).flatMap (fun c =>
          (singleTraversalOutput filters (contents c)).map (withContainerName c)) ∧
    (pattern ≠ "" → traversedContainers filepath_Match pattern containers
      = matchingContainers filepath_Match pattern containers) ∧
    (traversedContainers filepath_Match "" containers = containers ∧
      (accountTraversalOutput filepath_Match containers "" contents filters).1 = none) ∧
    (∀ objs : List storedObject,
      (∀ c ∈ traversedContainers filepath_Match pattern containers, contents c = objs) →
      (accountTraversalOutput filepath_Match containers pattern contents filters).2.length
        = (traversedContainers filepath_Match pattern containers).length
            * (singleTraversalOutput filters objs).length ∧
      (filters = none →
        (accountTraversalOutput filepath_Match containers pattern contents filters).2.length
          = (traversedContainers filepath_Match pattern containers).length * objs.length)) ∧
    (∀ d ∈ (accountTraversalOutput filepath_Match containers pattern contents filters).2,
      ∃ c ∈ traversedContainers filepath_Match pattern containers,
        ∃ o ∈ singleTraversalOutput filters (contents c),
          d.containerName = c ∧ d.relativePath = o.relativePath ∧ d.name = o.name) := by
  have hlist : (listContainers filepath_Match pattern containers).2 = none := by
    rcases hl : listContainers filepath_Match pattern containers with ⟨cList, e⟩
    cases e with
    | none => rfl
    | some err => simp [accountTraversalOutput, accountTraverse, hl] at hok
  have hmatch := listContainers_ok filepath_Match pattern containers hlist
  have hout : (accountTraversalOutput filepath_Match containers pattern contents filters).2
      = (traversedContainers filepath_Match pattern containers).flatMap (fun c =>
          (singleTraversalOutput filters (contents c)).map (withContainerName c)) := by
    rcases hl : listContainers filepath_Match pattern containers with ⟨cList, e⟩
    rw [hl] at hlist hmatch
    simp only at hlist hmatch
    subst hlist hmatch
    simp only [accountTraversalOutput, accountTraverse, hl]
    rw [(accountTraverseLoop_recording contents filters _ _).2]
    simp
  have hempty : (accountTraversalOutput filepath_Match containers "" contents filters).1
      = none := by
    simp only [accountTraversalOutput, accountTraverse, listContainers_empty]
    exact (accountTraverseLoop_recording contents filters _ _).1
  refine ⟨hout, fun hp => by simp [traversedContainers, hp],
    ⟨by simp [traversedContainers], hempty⟩, ?_, ?_⟩
  · intro objs hsame
    have hlen : (accountTraversalOutput filepath_Match containers pattern contents
        filters).2.length
        = (traversedContainers filepath_Match pattern containers).length
            * (singleTraversalOutput filters objs).length := by
      rw [hout]
      generalize traversedContainers filepath_Match pattern containers = ms at hsame
      induction ms with
      | nil => simp
      | cons c rest ih =>
        have hc := hsame c (List.mem_cons_self _ _)
        have ih1 := ih (fun x hx => hsame x (List.mem_cons_of_mem _ hx))
        rw [List.flatMap_cons, List.length_append, ih1, List.length_map, hc,
          List.length_cons]
        ring
    refine ⟨hlen, ?_⟩
    intro hnil
    subst hnil
    rw [hlen, singleTraversalOutput_eq]
    simp [slice.elems]
  · intro d hd
    rw [hout, List.mem_flatMap] at hd
    obtain ⟨c, hc, hdc⟩ := hd
    rw [List.mem_map] at hdc
    obtain ⟨o, ho, hod⟩ := hdc
    subst hod
    exact ⟨c, hc, o, ho, rfl, rfl, rfl⟩

/-- Witness for C10, amended: the pattern `data*` over the containers `data1`, `data2`,
`other`, each holding `a.txt` and `sub/b.txt`: four objects are delivered, tagged `data1`
and `data2`; with the empty pattern six objects are delivered, two for each of the three
containers. -/
theorem accountTraverse_delivers_union_witness :
    (accountTraversalOutput filepath_Match ["data1", "data2", "other"] "data*"
        exampleContents none).2
      = (traversedContainers filepath_Match "data*" ["data1", "data2", "other"]).flatMap
          (fun c => (singleTraversalOutput none (exampleContents c)).map
            (withContainerName c)) ∧
    (accountTraversalOutput filepath_Match ["data1", "data2", "other"] "data*"
        exampleContents none).2.map (fun o => (o.containerName, o.relativePath))
      = [("data1", "a.txt"), ("data1", "sub/b.txt"), ("data2", "a.txt"),
         ("data2", "sub/b.txt")] ∧
    (accountTraversalOutput filepath_Match ["data1", "data2", "other"] ""
        exampleContents none).2.length = 3 * 2 :=
  ⟨(accountTraverse_delivers_union filepath_Match ["data1", "data2", "other"] "data*"
      exampleContents none (by decide)).1, by decide,
   ((accountTraverse_delivers_union filepath_Match ["data1", "data2", "other"] ""
      exampleContents none (by decide)).2.2.2.1 (exampleContents "data1")
        (fun _ _ => rfl)).2 rfl⟩

end account


section objects

/-- C12: `a.isMoreRecentThan(b)` is true exactly when the `lastModifiedTime` of `a` is
strictly after that of `b`; it is false when the two are equal, so false for an object
compared with itself; it is never true in both directions; and it depends on the two
timestamps only. -/
theorem isMoreRecentThan_spec (a b : storedObject) :
    (a.isMoreRecentThan b = true ↔ b.lastModifiedTime < a.lastModifiedTime) ∧
    (a.lastModifiedTime = b.lastModifiedTime → a.isMoreRecentThan b = false) ∧
    a.isMoreRecentThan a = false ∧
    ¬ (a.isMoreRecentThan b = true ∧ b.isMoreRecentThan a = true) ∧
    (∀ a' b' : storedObject, a'.lastModifiedTime = a.lastModifiedTime →
      b'.lastModifiedTime = b.lastModifiedTime →
      a'.isMoreRecentThan b' = a.isMoreRecentThan b) := by
  refine ⟨?_, ?_, ?_, ?_, ?_⟩
  · simp [storedObject.isMoreRecentThan, time_After]
  · intro h
    simp [storedObject.isMoreRecentThan, time_After, h]
  · simp [storedObject.isMoreRecentThan, time_After]
  · simp only [storedObject.isMoreRecentThan, time_After, decide_eq_true_eq]
    omega
  · intro a' b' ha hb
    simp [storedObject.isMoreRecentThan, ha, hb]

/-- Witness for C12: of two objects that differ in size and name but carry the same
timestamp neither is more recent; a later timestamp is more recent. -/
theorem isMoreRecentThan_spec_witness :
    exampleObject.isMoreRecentThan { exampleObject with size := 7, name := "c.txt" } = false ∧
    ({ exampleObject with lastModifiedTime := 5 } : storedObject).isMoreRecentThan
      exampleObject = true :=
  ⟨(isMoreRecentThan_spec exampleObject { exampleObject with size := 7, name := "c.txt" }).2.1
      rfl,
   (isMoreRecentThan_spec { exampleObject with lastModifiedTime := 5 } exampleObject).1.mpr
      (by decide)⟩

end objects

section filters

variable {σ : Type}

theorem withSupport_elems (support : objectFilter → String × Bool)
    (filters : slice objectFilter) :
    (withSupport support filters).elems
      = filters.elems.map (fun f => { f with doesSupportThisOS := support f }) := by
  cases filters <;> rfl

/-- C13 does not hold as stated: the only filter of the chain reports itself unsupported
and fails the object, so every supported filter passes it, yet `passedFilters` is false
and the processor is not called. -/
theorem passedFilters_unsupported_failure_counts :
    (∀ f ∈ slice.elems (some [unsupportedRejectFilter]),
      f.doesSupportThisOS.2 = true → f.doesPass exampleObject = true) ∧
    (passedFilters (some [unsupportedRejectFilter]) exampleObject emptyWorld).1 = false ∧
    (processIfPassedFilters (some [unsupportedRejectFilter]) exampleObject
      recordingProcessor emptyWorld).2.ext = [] := by
  refine ⟨?_, rfl, rfl⟩
  intro f hf hs
  simp only [slice.elems, List.mem_singleton] at hf
  subst hf
  simp [unsupportedRejectFilter] at hs

/-- C13, amended: `passedFilters` honours the pass/fail result of every filter, supported
or not: the object reaches the processor exactly when every filter of the chain passes
it; the verdict is the same whatever the filters answer to `doesSupportThisOS`; and a
failing result from a filter that reports itself unsupported keeps the object from the
processor. -/
theorem passedFilters_ignores_support (filters : slice objectFilter) (o : storedObject)
    (processor : objectProcessor σ) (w : World σ) :
    ((passedFilters filters o w).1 = true ↔ ∀ f ∈ filters.elems, f.doesPass o = true) ∧
    (∀ support : objectFilter → String × Bool,
      (passedFilters (withSupport support filters) o w).1 = (passedFilters filters o w).1) ∧
    (∀ f ∈ filters.elems, f.doesSupportThisOS.2 = false → f.doesPass o = false →
      (passedFilters filters o w).1 = false ∧
      processIfPassedFilters filters o processor w
        = (none, (passedFilters filters o w).2)) := by
  have hiff : (passedFilters filters o w).1 = true ↔
      ∀ f ∈ filters.elems, f.doesPass o = true := by
    rw [passedFilters_fst, List.all_eq_true]
  refine ⟨hiff, ?_, ?_⟩
  · intro support
    rw [passedFilters_fst, passedFilters_fst, withSupport_elems, List.all_map]
    rfl
  · intro f hf _ hfail
    have h1 : (passedFilters filters o w).1 = false := by
      cases hb : (passedFilters filters o w).1
      · rfl
      · have := hiff.mp hb f hf
        rw [hfail] at this
        cases this
    refine ⟨h1, ?_⟩
    unfold processIfPassedFilters
    simp [h1]

/-- Witness for C13, amended: the unsupported rejecting filter blocks the example object,
at the end of a chain whose other filter passes it. -/
theorem passedFilters_ignores_support_witness :
    (passedFilters (some [sizeFilter, unsupportedRejectFilter]) exampleObject emptyWorld).1
      = false ∧
    processIfPassedFilters (some [sizeFilter, unsupportedRejectFilter]) exampleObject
      recordingProcessor emptyWorld
      = (none, (passedFilters (some [sizeFilter, unsupportedRejectFilter]) exampleObject
          emptyWorld).2) :=
  (passedFilters_ignores_support (some [sizeFilter, unsupportedRejectFilter]) exampleObject
    recordingProcessor emptyWorld).2.2 unsupportedRejectFilter
    (by simp [slice.elems]) rfl rfl

theorem passedFiltersLoop_reports (o : storedObject) (fs : List objectFilter) (w : World σ) :
    (passedFiltersLoop o fs w).2.glcmOutput
      = w.glcmOutput ++ unsupportedReports (examinedFilters o fs) := by
  induction fs generalizing w with
  | nil => simp [passedFiltersLoop, examinedFilters, unsupportedReports]
  | cons f rest ih =>
    simp only [passedFiltersLoop, examinedFilters]
    cases hp : f.doesPass o <;> cases hs : f.doesSupportThisOS.2 <;>
      simp [ih, glcm_Error, unsupportedReports, hs]

theorem passedFilters_reports (filters : slice objectFilter) (o : storedObject)
    (w : World σ) :
    (passedFilters filters o w).2.glcmOutput
      = w.glcmOutput ++ unsupportedReports (examinedFilters o filters.elems) := by
  unfold passedFilters
  split
  · exact passedFiltersLoop_reports o _ w
  · rename_i h
    cases filters with
    | none => simp [slice.elems, examinedFilters, unsupportedReports]
    | some fs =>
      cases fs with
      | nil => simp [slice.elems, examinedFilters, unsupportedReports]
      | cons f rest => simp [slice.len, slice.elems] at h

/-- C14 does not hold as stated: an unsupported filter that stands after a failing filter
is not reported, because the loop returns at the first failing filter. -/
theorem passedFilters_unreported_after_failure :
    unsupportedKeepFilter ∈
      slice.elems (some [rejectAllFilter, unsupportedKeepFilter]) ∧
    unsupportedKeepFilter.doesSupportThisOS.2 = false ∧
    (passedFilters (some [rejectAllFilter, unsupportedKeepFilter]) exampleObject
      emptyWorld).2.glcmOutput = [] := by
  refine ⟨?_, rfl, rfl⟩
  simp [slice.elems]

/-- C14, amended: `passedFilters` reports through `glcm.Error`, once each, in chain order
and with the filter's own message, exactly the unsupported filters among those it
examines, i.e. those standing no later than the first filter the object does not pass
(every unsupported filter of the chain when the object passes all of them); a report
does not stop the evaluation: the filters after a reported one are still examined and
the verdict is still whether every filter passes. -/
theorem passedFilters_reports_examined (filters : slice objectFilter) (o : storedObject)
    (w : World σ) :
    (passedFilters filters o w).2.glcmOutput
      = w.glcmOutput ++ unsupportedReports (examinedFilters o filters.elems) ∧
    ((∀ f ∈ filters.elems, f.doesPass o = true) →
      (passedFilters filters o w).2.glcmOutput
        = w.glcmOutput ++ unsupportedReports filters.elems) ∧
    ((passedFilters filters o w).1 = true ↔ ∀ f ∈ filters.elems, f.doesPass o = true) := by
  refine ⟨passedFilters_reports filters o w, ?_, ?_⟩
  · intro h
    rw [passedFilters_reports]
    have hex : ∀ fs : List objectFilter, (∀ f ∈ fs, f.doesPass o = true) →
        examinedFilters o fs = fs := by
      intro fs
      induction fs with
      | nil => intro _; rfl
      | cons f rest ih =>
        intro hall
        simp only [examinedFilters, hall f (List.mem_cons_self _ _), if_true]
        rw [ih (fun g hg => hall g (List.mem_cons_of_mem _ hg))]
    rw [hex _ h]
  · rw [passedFilters_fst, List.all_eq_true]

/-- Witness for C14, amended: an unsupported filter that passes is reported and the
filter after it is still examined (it rejects the object); both unsupported filters of a
chain the object passes up to the last one are reported. -/
theorem passedFilters_reports_examined_witness :
    (passedFilters (some [unsupportedKeepFilter, rejectAllFilter]) exampleObject
      emptyWorld).2.glcmOutput
      = emptyWorld.glcmOutput ++ unsupportedReports
          (examinedFilters exampleObject
            (slice.elems (some [unsupportedKeepFilter, rejectAllFilter]))) ∧
    (passedFilters (some [unsupportedKeepFilter, unsupportedKeepFilter]) exampleObject
      emptyWorld).2.glcmOutput
      = emptyWorld.glcmOutput ++ unsupportedReports
          (slice.elems (some [unsupportedKeepFilter, unsupportedKeepFilter])) :=
  ⟨(passedFilters_reports_examined (some [unsupportedKeepFilter, rejectAllFilter])
      exampleObject emptyWorld).1,
   (passedFilters_reports_examined (some [unsupportedKeepFilter, unsupportedKeepFilter])
      exampleObject emptyWorld).2.1 (by simp [slice.elems, unsupportedKeepFilter])⟩

/-- C15: if `passedFilters` is true for a chain, it is true for the chain with the filter
at any position removed, whatever the world the two calls run in; so removing a filter,
an always-failing one in particular, never takes an object out of the passed set. -/
theorem passedFilters_remove_filter (fs : List objectFilter) (i : Nat) (o : storedObject)
    (w w' : World σ) (h : (passedFilters (some fs) o w).1 = true) :
    (passedFilters (some (fs.eraseIdx i)) o w').1 = true := by
  rw [passedFilters_fst, List.all_eq_true] at h ⊢
  intro f hf
  exact h f (List.mem_of_mem_eraseIdx hf)

/-- Witness for C15: the example object passes the chain of the size filter and an
unsupported keeping filter, and still passes once the size filter is removed. -/
theorem passedFilters_remove_filter_witness :
    (passedFilters (some ([sizeFilter, unsupportedKeepFilter].eraseIdx 0)) exampleObject
      emptyWorld).1 = true :=
  passedFilters_remove_filter [sizeFilter, unsupportedKeepFilter] 0 exampleObject emptyWorld
    emptyWorld rfl

end filters

section decorator

variable {σ : Type}

/-- C20: `initContainerDecorator(c, p)(o)` is one call of `p`, on the object that equals
`o` in every field except `containerName`, which is `c` whatever `o` carried, in the world
of the call; its result and its effects are exactly those of that call of `p`. The closure
works on its own by-value parameter, so nothing but `p` acts on the world, the caller's
object included: with a processor that leaves the world alone the world is unchanged. -/
theorem initContainerDecorator_spec (c : String) (p : objectProcessor σ) (o : storedObject)
    (w : World σ) :
    initContainerDecorator c p o w = p (withContainerName c o) w ∧
    (withContainerName c o).containerName = c ∧
    (withContainerName c o).name = o.name ∧
    (withContainerName c o).lastModifiedTime = o.lastModifiedTime ∧
    (withContainerName c o).size = o.size ∧
    (withContainerName c o).md5 = o.md5 ∧
    (withContainerName c o).blobType = o.blobType ∧
    (withContainerName c o).contentDisposition = o.contentDisposition ∧
    (withContainerName c o).cacheControl = o.cacheControl ∧
    (withContainerName c o).contentLanguage = o.contentLanguage ∧
    (withContainerName c o).contentEncoding = o.contentEncoding ∧
    (withContainerName c o).contentType = o.contentType ∧
    (withContainerName c o).relativePath = o.relativePath ∧
    (withContainerName c o).dstContainerName = o.dstContainerName ∧
    (withContainerName c o).blobAccessTier = o.blobAccessTier ∧
    (withContainerName c o).Metadata = o.Metadata ∧
    (∀ r : error, initContainerDecorator c (fun _ w => (r, w)) o w = (r, w)) :=
  ⟨rfl, rfl, rfl, rfl, rfl, rfl, rfl, rfl, rfl, rfl, rfl, rfl, rfl, rfl, rfl, rfl,
    fun _ => rfl⟩

end decorator

section notice

variable {σ Ctx Cred Pipe T : Type}

theorem recommendHttps_after_once (url : URL) (w : World σ)
    (h : w.httpsRecommendationOnce = true) : recommendHttpsIfNecessary url w = w := by
  unfold recommendHttpsIfNecessary httpsRecommendationOnce_Do
  split
  · simp [h]
  · rfl

theorem recommendHttps_other_scheme (url : URL) (w : World σ)
    (h : strings_EqualFold url.Scheme "http" = false) :
    recommendHttpsIfNecessary url w = w := by
  simp [recommendHttpsIfNecessary, h]

theorem recommendHttps_first_http (url : URL) (w : World σ)
    (h : strings_EqualFold url.Scheme "http" = true)
    (hw : w.httpsRecommendationOnce = false) :
    recommendHttpsIfNecessary url w
      = { w with glcmOutput := w.glcmOutput ++ [glcmMessage.Info httpsRecommendedNotice],
                 httpsRecommendationOnce := true } := by
  simp [recommendHttpsIfNecessary, httpsRecommendationOnce_Do, h, hw, glcm_Info]

theorem recommendHttpsForAll_after_once (urls : List URL) (w : World σ)
    (h : w.httpsRecommendationOnce = true) : recommendHttpsForAll urls w = w := by
  induction urls with
  | nil => rfl
  | cons u rest ih =>
    simp only [recommendHttpsForAll, List.foldl_cons] at ih ⊢
    rw [recommendHttps_after_once u w h]
    exact ih

theorem recommendHttpsForAll_other_schemes (urls : List URL) (w : World σ)
    (h : ∀ u ∈ urls, strings_EqualFold u.Scheme "http" = false) :
    recommendHttpsForAll urls w = w := by
  induction urls with
  | nil => rfl
  | cons u rest ih =>
    simp only [recommendHttpsForAll, List.foldl_cons] at ih ⊢
    rw [recommendHttps_other_scheme u w (h u (List.mem_cons_self _ _))]
    exact ih (fun v hv => h v (List.mem_cons_of_mem _ hv))

theorem recommendHttpsForAll_append (xs ys : List URL) (w : World σ) :
    recommendHttpsForAll (xs ++ ys) w = recommendHttpsForAll ys (recommendHttpsForAll xs w) := by
  simp [recommendHttpsForAll, List.foldl_append]

/-- C16: over a sequence of `recommendHttpsIfNecessary` calls in a process whose
`httpsRecommendationOnce` has not fired, calls whose scheme is not `http` (compared
without regard to case) leave the world as it is, the first call whose scheme is `http`
hands the notice to `glcm` once and fires the `Once`, and no later call, whatever its
scheme, changes anything; so the notice is emitted at most once, and not at all when no
scheme is `http` or when the `Once` had already fired. -/
theorem recommendHttps_at_most_once (w : World σ) :
    (∀ urls : List URL, (∀ u ∈ urls, strings_EqualFold u.Scheme "http" = false) →
      recommendHttpsForAll urls w = w) ∧
    (∀ urls : List URL, w.httpsRecommendationOnce = true →
      recommendHttpsForAll urls w = w) ∧
    (∀ (before after : List URL) (url : URL), w.httpsRecommendationOnce = false →
      (∀ u ∈ before, strings_EqualFold u.Scheme "http" = false) →
      strings_EqualFold url.Scheme "http" = true →
      recommendHttpsForAll before w = w ∧
      recommendHttpsForAll (before ++ [url]) w
        = { w with glcmOutput := w.glcmOutput ++ [glcmMessage.Info httpsRecommendedNotice],
                   httpsRecommendationOnce := true } ∧
      recommendHttpsForAll (before ++ url :: after) w
        = recommendHttpsForAll (before ++ [url]) w) ∧
    (∀ urls : List URL, noticeCount w ≤ noticeCount (recommendHttpsForAll urls w) ∧
      noticeCount (recommendHttpsForAll urls w) ≤ noticeCount w + 1) := by
  refine ⟨fun urls h => recommendHttpsForAll_other_schemes urls w h,
    fun urls h => recommendHttpsForAll_after_once urls w h, ?_, ?_⟩
  · intro before after url hw hbefore hurl
    have h1 := recommendHttpsForAll_other_schemes before w hbefore
    have h2 : recommendHttpsForAll (before ++ [url]) w
        = { w with glcmOutput := w.glcmOutput ++ [glcmMessage.Info httpsRecommendedNotice],
                   httpsRecommendationOnce := true } := by
      rw [recommendHttpsForAll_append, h1]
      simp only [recommendHttpsForAll, List.foldl_cons, List.foldl_nil]
      exact recommendHttps_first_http url w hurl hw
    refine ⟨h1, h2, ?_⟩
    have h3 : before ++ url :: after = (before ++ [url]) ++ after := by simp
    rw [h3, recommendHttpsForAll_append, h2]
    exact recommendHttpsForAll_after_once after _ rfl
  · intro urls
    induction urls generalizing w with
    | nil => simp [recommendHttpsForAll]
    | cons u rest ih =>
      simp only [recommendHttpsForAll, List.foldl_cons] at ih ⊢
      by_cases hu : strings_EqualFold u.Scheme "http" = true
      · cases hw : w.httpsRecommendationOnce
        · rw [recommendHttps_first_http u w hu hw]
          have hrest := recommendHttpsForAll_after_once rest
            ({ w with glcmOutput := w.glcmOutput ++ [glcmMessage.Info httpsRecommendedNotice],
                      httpsRecommendationOnce := true }) rfl
          simp only [recommendHttpsForAll] at hrest
          rw [hrest]
          simp [noticeCount, List.count_append]
        · rw [recommendHttps_after_once u w hw]
          exact ih w
      · rw [recommendHttps_other_scheme u w (by simpa using hu)]
        exact ih w

/-- Witness for C16: `https`, then `HTTP`, then `http`: one notice, given at the second
call. -/
theorem recommendHttps_at_most_once_witness :
    recommendHttpsForAll [exampleURL "/a"] emptyWorld = emptyWorld ∧
    recommendHttpsForAll ([exampleURL "/a"] ++ [{ exampleURL "/b" with Scheme := "HTTP" }])
        emptyWorld
      = { emptyWorld with
          glcmOutput := emptyWorld.glcmOutput ++ [glcmMessage.Info httpsRecommendedNotice],
          httpsRecommendationOnce := true } ∧
    recommendHttpsForAll ([exampleURL "/a"] ++ { exampleURL "/b" with Scheme := "HTTP" } ::
        [{ exampleURL "/c" with Scheme := "http" }]) emptyWorld
      = recommendHttpsForAll ([exampleURL "/a"] ++ [{ exampleURL "/b" with Scheme := "HTTP" }])
          emptyWorld :=
  (recommendHttps_at_most_once emptyWorld).2.2.1 [exampleURL "/a"]
    [{ exampleURL "/c" with Scheme := "http" }] { exampleURL "/b" with Scheme := "HTTP" } rfl
    (by decide) (by decide)

/-- On the paths through the `switch`, the notice is given: a call without entry list, for
a remote kind and a locator that parses with the scheme `http`, made before the `Once`
has fired, that returns a traverser, leaves the world with the notice added and the
`Once` fired. -/
theorem initResourceTraverser_switch_gives_notice (d : Deps σ Ctx Cred Pipe T)
    (resource : String) (location : Location) (ctx : Option Ctx) (credential : Option Cred)
    (followSymlinks : Option Bool) (recursive : Bool)
    (incrementEnumerationCounter : enumerationCounter σ) (w : World σ) (u : URL) (t : T)
    (hkind : isRemoteKind location = true)
    (hparse : d.url_Parse resource = (some u, none))
    (hscheme : strings_EqualFold u.Scheme "http" = true)
    (hw : w.httpsRecommendationOnce = false)
    (hout : (initResourceTraverser d resource location ctx credential followSymlinks none
      recursive incrementEnumerationCounter w).1 = Outcome.returned (some t) none) :
    (initResourceTraverser d resource location ctx credential followSymlinks none
      recursive incrementEnumerationCounter w).2
      = { w with glcmOutput := w.glcmOutput ++ [glcmMessage.Info httpsRecommendedNotice],
                 httpsRecommendationOnce := true } := by
  have hn := recommendHttps_first_http u w hscheme hw
  rcases hpp : pipelineIfProvided d location ctx credential with ⟨p, e⟩
  cases e with
  | some err =>
    simp [initResourceTraverser, hpp] at hout
  | none =>
    cases location <;> simp [isRemoteKind] at hkind
    · simp only [initResourceTraverser, hpp, reduceCtorEq, if_false, initBlob, hparse] at hout ⊢
      rw [← hn]
      repeat' split
      all_goals rfl
    · simp only [initResourceTraverser, hpp, reduceCtorEq, if_false, initFile, hparse] at hout ⊢
      rw [← hn]
      repeat' split
      all_goals rfl
    · simp only [initResourceTraverser, hpp, reduceCtorEq, if_false, initBlobFS, hparse]
        at hout ⊢
      rw [← hn]
      repeat' split
      all_goals first | rfl | simp_all
    · simp only [initResourceTraverser, hpp, reduceCtorEq, if_false, initS3, hparse] at hout ⊢
      rw [← hn]
      repeat' split
      all_goals rfl

/-- C17, the code at the failing input: Blob, a locator whose scheme is `http`, the
`Once` not yet fired, an entry list supplied: the list traverser is returned and the
world is unchanged, no notice is given; the same call without the entry list gives the
notice. -/
theorem initResourceTraverser_list_http_no_notice :
    initResourceTraverser httpDeps "/container/dir" Location.Blob (some ()) (some ()) none
        (some ["a.txt"]) true id emptyWorld
      = (Outcome.returned (some "list") none, emptyWorld) ∧
    emptyWorld.httpsRecommendationOnce = false ∧
    (initResourceTraverser httpDeps "/container/dir" Location.Blob (some ()) (some ()) none
        none true id emptyWorld).2.glcmOutput
      = [glcmMessage.Info httpsRecommendedNotice] :=
  ⟨rfl, rfl, rfl⟩

end notice

section submit

variable {σ Resp : Type}

/-- C18: for every behaviour of the network and every payload, logging the calls does not
change what `sendJobPartOrderToSTE` does; it makes one `http.Post` when the first succeeds
and two when the first fails, never more; the calls are, in order, the POST, then either
the read of the body and its close, or the sleep of two seconds and the second POST (on
what is left of the buffer) followed, when that one succeeds, by the read and the close;
and it panics exactly when both POSTs fail or the read of the obtained response fails,
returning normally otherwise. -/
theorem sendJobPartOrderToSTE_attempts (d : SubmitDeps σ Resp) (payload : List Nat) (s : σ) :
    ((sendJobPartOrderToSTE d.logged payload (s, [])).1,
      (sendJobPartOrderToSTE d.logged payload (s, [])).2.1)
      = sendJobPartOrderToSTE d payload s ∧
    postCount (submitCalls d payload s)
      = (if attemptFailed (firstPost d payload s) then 2 else 1) ∧
    submitCalls d payload s
      = (if attemptFailed (firstPost d payload s) then
          [SubmitCall.post "http://localhost:1337" "application/json; charset=utf-8" payload,
           SubmitCall.sleep (2 * 1000000000),
           SubmitCall.post "http://localhost:1337" "application/json; charset=utf-8"
             (firstPost d payload s).1.2] ++
          (if attemptFailed (secondPost d payload s) then []
           else [SubmitCall.readAll, SubmitCall.close])
         else
          [SubmitCall.post "http://localhost:1337" "application/json; charset=utf-8" payload,
           SubmitCall.readAll, SubmitCall.close]) ∧
    (sendJobPartOrderToSTE d payload s).1.isPanic
      = ((attemptFailed (firstPost d payload s) && attemptFailed (secondPost d payload s))
          || readFails d payload s) ∧
    ((sendJobPartOrderToSTE d payload s).1.isPanic = false →
      (sendJobPartOrderToSTE d payload s).1 = Completion.returned ()) := by
  rcases h1 : d.http_Post "http://localhost:1337" "application/json; charset=utf-8"
    payload s with ⟨⟨r1, rest1⟩, s1⟩
  cases r1 with
  | ok res =>
    rcases hr : d.ioutil_ReadAll res s1 with ⟨⟨body, e⟩, s2⟩
    cases e <;>
      simp [sendJobPartOrderToSTE, submitCalls, SubmitDeps.logged, readResponse, postCount,
        attemptFailed, firstPost, secondPost, obtainedResponse, readFails,
        Completion.isPanic, h1, hr]
  | error e1 =>
    rcases h2 : d.http_Post "http://localhost:1337" "application/json; charset=utf-8"
      rest1 (d.time_Sleep (2 * 1000000000) s1) with ⟨⟨r2, rest2⟩, s3⟩
    cases r2 with
    | error e2 =>
      simp [sendJobPartOrderToSTE, submitCalls, SubmitDeps.logged, readResponse, postCount,
        attemptFailed, firstPost, secondPost, obtainedResponse, readFails,
        Completion.isPanic, h1, h2]
    | ok res =>
      rcases hr : d.ioutil_ReadAll res s3 with ⟨⟨body, e⟩, s4⟩
      cases e <;>
        simp [sendJobPartOrderToSTE, submitCalls, SubmitDeps.logged, readResponse, postCount,
          attemptFailed, firstPost, secondPost, obtainedResponse, readFails,
          Completion.isPanic, h1, h2, hr]

/-- Witness for C18: an engine that refuses the first connection and answers the second
gets two POSTs and the call returns; one that refuses three times gets two POSTs and the
call panics; one that answers at once gets one POST. -/
theorem sendJobPartOrderToSTE_attempts_witness :
    postCount (submitCalls scriptedEngine [123, 125] [false, true]) = 2 ∧
    (sendJobPartOrderToSTE scriptedEngine [123, 125] [false, true]).1
      = Completion.returned () ∧
    postCount (submitCalls scriptedEngine [123, 125] [false, false, false]) = 2 ∧
    (sendJobPartOrderToSTE scriptedEngine [123, 125] [false, false, false])
      = (Completion.panicked (some "connection refused"), [false]) ∧
    postCount (submitCalls scriptedEngine [123, 125] [true]) = 1 :=
  ⟨(sendJobPartOrderToSTE_attempts scriptedEngine [123, 125] [false, true]).2.1,
   (sendJobPartOrderToSTE_attempts scriptedEngine [123, 125] [false, true]).2.2.2.2 rfl,
   (sendJobPartOrderToSTE_attempts scriptedEngine [123, 125] [false, false, false]).2.1,
   rfl,
   (sendJobPartOrderToSTE_attempts scriptedEngine [123, 125] [true]).2.1⟩

end submit

section poll

variable {σ Req Resp F : Type}

theorem counted_printFailedTransfers (d : PollDeps σ Req Resp F) (index : Nat)
    (ts : List TransferDetail) (s : σ) (n : Nat) :
    (printFailedTransfers d.counted index ts (s, n)).2 = n := by
  induction ts generalizing index s with
  | nil => rfl
  | cons t rest ih =>
    simp only [printFailedTransfers]
    exact ih _ _

theorem counted_printSummary (d : PollDeps σ Req Resp F) (jobId : String)
    (summary : JobProgressSummary F) (s : σ) (n : Nat) :
    (printSummary d.counted jobId summary (s, n)).2 = n := by
  show (printFailedTransfers d.counted 0 summary.FailedTransfers (_, n)).2 = n
  exact counted_printFailedTransfers d 0 _ _ n

end poll

section poll

variable {σ Req Resp F : Type}

/-- What `fetchJobStatus` does once the request is built: an error of `client.Do` panics
with it; a status other than 202 panics (with a nil value); an error of the read panics
with it; otherwise the call returns the `JobStatus` of the summary `json.Unmarshal` left,
whether or not `json.Unmarshal` reported an error; and `client.Do` is called at most
once. -/
theorem fetchJobStatus_outcomes (d : PollDeps σ Req Resp F) (jobId : String) (s : σ)
    (req : Req) (hreq : pollRequest d jobId = some req) :
    (∀ err s1, d.client_Do req s = (Except.error err, s1) →
      fetchJobStatus d jobId s = (Completion.panicked (some err), s1)) ∧
    (∀ resp s1, d.client_Do req s = (Except.ok resp, s1) →
      d.StatusCode resp ≠ http_StatusAccepted →
      (fetchJobStatus d jobId s).1 = Completion.panicked none) ∧
    (∀ resp s1 body err s2, d.client_Do req s = (Except.ok resp, s1) →
      d.StatusCode resp = http_StatusAccepted →
      d.ioutil_ReadAll resp s1 = ((body, some err), s2) →
      (fetchJobStatus d jobId s).1 = Completion.panicked (some err)) ∧
    (∀ resp s1 body s2, d.client_Do req s = (Except.ok resp, s1) →
      d.StatusCode resp = http_StatusAccepted →
      d.ioutil_ReadAll resp s1 = ((body, none), s2) →
      (fetchJobStatus d jobId s).1
        = Completion.returned (d.json_Unmarshal body (zeroSummary d)).1.JobStatus) ∧
    (fetchJobStatus d.counted jobId (s, 0)).2.2 ≤ 1 := by
  unfold pollRequest at hreq
  rcases hn : d.http_NewRequest "GET" "http://localhost:1337" with err | req0
  · simp [hn] at hreq
  · rcases hm : d.json_Marshal { JobId := jobId, ExpectedTransferStatus := math_MaxUint8 }
      with ⟨text, e⟩
    cases e with
    | some err => simp [hn, hm] at hreq
    | none =>
      simp only [hn, hm, Option.some.injEq] at hreq
      subst hreq
      refine ⟨?_, ?_, ?_, ?_, ?_⟩
      · intro err s1 hdo
        simp [fetchJobStatus, hn, hm, hdo]
      · intro resp s1 hdo hstatus
        simp [fetchJobStatus, hn, hm, hdo, hstatus]
      · intro resp s1 body err s2 hdo hstatus hread
        simp [fetchJobStatus, hn, hm, hdo, hstatus, hread]
      · intro resp s1 body s2 hdo hstatus hread
        simp [fetchJobStatus, hn, hm, hdo, hstatus, hread]
      · have hn' : d.counted.http_NewRequest "GET" "http://localhost:1337"
            = Except.ok req0 := hn
        have hm' : d.counted.json_Marshal
            { JobId := jobId, ExpectedTransferStatus := math_MaxUint8 } = (text, none) := hm
        simp only [fetchJobStatus, hn', hm']
        rcases hdo : d.client_Do
          (d.encodeQuery req0 [("Type", "list"), ("command", text)]) s with ⟨r, s1⟩
        have hdo' : d.counted.client_Do
            (d.counted.encodeQuery req0 [("Type", "list"), ("command", text)]) (s, 0)
            = (r, (s1, 1)) := by
          simp [PollDeps.counted, hdo]
        rw [hdo']
        cases r with
        | error err => simp
        | ok resp =>
          simp only
          split
          · simp [PollDeps.counted]
          · rcases hread : d.ioutil_ReadAll resp s1 with ⟨⟨body, e⟩, s2⟩
            have hread' : d.counted.ioutil_ReadAll resp (s1, 1) = ((body, e), (s2, 1)) := by
              simp [PollDeps.counted, hread]
            rw [hread']
            cases e with
            | some err => simp [PollDeps.counted]
            | none =>
              exact Nat.le_of_eq (counted_printSummary d jobId
                (d.json_Unmarshal body (zeroSummary d)).1 s2 1)

end poll

section poll

/-- C19, the code at the failing input: the engine answers 202 with the body `no`, which
the deserializer rejects with an error; `fetchJobStatus` does not panic, it returns the
`JobStatus` of the untouched zero summary, the empty string; with a body that
deserializes it returns the status read from it. -/
theorem fetchJobStatus_undecodable_body_returns :
    (scriptedPoll.json_Unmarshal [110, 111] (zeroSummary scriptedPoll)).2.isSome = true ∧
    fetchJobStatus scriptedPoll "job-1" (202, [110, 111])
      = (Completion.returned "", (202, [110, 111])) ∧
    fetchJobStatus scriptedPoll "job-1" (202, [123, 125])
      = (Completion.returned "InProgress", (202, [123, 125])) := by
  decide

end poll

/-! ## Shell-glob matching: literal prefixes -/

/-- The bytes of a concatenation. -/
theorem goBytes_append (a b : String) : goBytes (a ++ b) = goBytes a ++ goBytes b := by
  simp [goBytes, String.toList, List.flatMap_append]

/-- The bytes of the pattern `*`. -/
theorem goBytes_star : goBytes "*" = [42] := by decide

/-- What `literalBytes` says of each byte. -/
theorem literalBytes_cons {c : UInt8} {p : List UInt8} (h : literalBytes (c :: p) = true) :
    (c ≠ 42 ∧ c ≠ 63 ∧ c ≠ 91 ∧ c ≠ 92) ∧ literalBytes p = true := by
  simp only [literalBytes, List.all_cons, Bool.and_eq_true, bne_iff_ne, ne_eq] at h ⊢
  exact ⟨⟨h.1.1.1.1, h.1.1.1.2, h.1.1.2, h.1.2⟩, by simpa [literalBytes] using h.2⟩

/-- A name without separator keeps none after a prefix is dropped. -/
theorem contains_drop_separator (name : List UInt8) (k : Nat)
    (h : filepath_Separator ∉ name) : (name.drop k).contains filepath_Separator = false := by
  rw [Bool.eq_false_iff]
  intro hc
  exact h (List.mem_of_mem_drop (by simpa using hc))

/-- A star outside a class ends the chunk at once. -/
theorem scanIndex_star (r : List UInt8) : scanIndex false (42 :: r) = 0 := by
  rw [scanIndex.eq_def]
  simp

/-- A byte that is no star, bracket or backslash is counted and the scan goes on. -/
theorem scanIndex_cons (c : UInt8) (l : List UInt8) (h42 : c ≠ 42) (h91 : c ≠ 91)
    (h92 : c ≠ 92) : scanIndex false (c :: l) = 1 + scanIndex false l := by
  rw [scanIndex.eq_def]
  simp only [h92, h91, h42, if_false]
  split <;> rfl

/-- The scan runs over literal bytes. -/
theorem scanIndex_literal (p q : List UInt8) (hp : literalBytes p) :
    scanIndex false (p ++ q) = p.length + scanIndex false q := by
  induction p with
  | nil => simp
  | cons c p ih =>
    obtain ⟨⟨h42, _, h91, h92⟩, hp'⟩ := literalBytes_cons hp
    rw [List.cons_append, scanIndex_cons c _ h42 h91 h92, ih hp', List.length_cons]
    omega

/-- A pattern beginning with a literal byte has no leading star to strip. -/
theorem dropWhile_star_literal (p q : List UInt8) (hp : literalBytes p) (hne : p ≠ []) :
    (p ++ q).dropWhile (fun c => c == 42) = p ++ q := by
  cases p with
  | nil => exact absurd rfl hne
  | cons c p =>
    have h42 := (literalBytes_cons hp).1.1
    have h : (c == 42) = false := by simpa using h42
    simp [List.dropWhile, h]

/-- The first chunk of a literal followed by a star is the literal. -/
theorem scanChunk_literal_star (p : List UInt8) (hp : literalBytes p) (hne : p ≠ []) :
    scanChunk (p ++ [42]) = (false, p, [42]) := by
  simp only [scanChunk, dropWhile_star_literal p [42] hp hne, scanIndex_literal p [42] hp,
    scanIndex_star, Nat.add_zero, List.take_left', List.drop_left', lt_self_iff_false,
    decide_False]

/-- A literal pattern is one chunk. -/
theorem scanChunk_literal (p : List UInt8) (hp : literalBytes p) (hne : p ≠ []) :
    scanChunk p = (false, p, []) := by
  have h1 := dropWhile_star_literal p [] hp hne
  have h2 := scanIndex_literal p [] hp
  simp only [List.append_nil] at h1 h2
  have h3 : scanIndex false [] = 0 := by rw [scanIndex.eq_def]
  simp [scanChunk, h1, h2, h3]

/-- The pattern made of a star alone: a star and an empty chunk. -/
theorem scanChunk_star : scanChunk [42] = (true, [], []) := by decide

/-- A literal chunk matches exactly when it begins the name, and leaves the rest of it. -/
theorem matchChunkLoop_literal (p : List UInt8) (hp : literalBytes p) (fuel : Nat)
    (hfuel : p.length < fuel) (s : List UInt8) (failed : Bool) :
    matchChunkLoop fuel p s failed
      = if failed = false ∧ p.isPrefixOf s = true then (s.drop p.length, true, none)
        else ([], false, none) := by
  induction p generalizing fuel s failed with
  | nil =>
    cases fuel with
    | zero => omega
    | succ fuel => cases failed <;> simp [matchChunkLoop]
  | cons c p ih =>
    obtain ⟨⟨h42, h63, h91, h92⟩, hp'⟩ := literalBytes_cons hp
    cases fuel with
    | zero => omega
    | succ fuel =>
      have hf : p.length < fuel := by simp at hfuel; omega
      simp only [matchChunkLoop, h91, h63, h92, if_false]
      rw [ih hp' fuel hf]
      cases failed with
      | true => simp
      | false =>
        cases s with
        | nil => simp
        | cons d s =>
          by_cases hd : d = c
          · subst hd; simp
          · have hd' : ¬ (c = d) := fun h => hd h.symm
            simp [hd, hd']

/-- The same for `matchChunk`, which starts the loop with enough fuel. -/
theorem matchChunk_literal (p : List UInt8) (hp : literalBytes p) (s : List UInt8) :
    matchChunk p s
      = if p.isPrefixOf s = true then (s.drop p.length, true, none) else ([], false, none) := by
  simp [matchChunk, matchChunkLoop_literal p hp (p.length + 1) (by omega) s false]

/-- A trailing star matches whatever holds no separator. -/
theorem matchLoop_star (fuel : Nat) (name : List UInt8) :
    matchLoop (fuel + 1) [42] name = (!name.contains filepath_Separator, none) := by
  simp [matchLoop, scanChunk_star]

/-- The matcher on a literal followed by a star. -/
theorem matchLoop_literal_star (p name : List UInt8) (hp : literalBytes p) (fuel : Nat)
    (hfuel : 2 ≤ fuel) :
    matchLoop fuel (p ++ [42]) name
      = (p.isPrefixOf name && !(name.drop p.length).contains filepath_Separator, none) := by
  obtain ⟨fuel, rfl⟩ : ∃ k, fuel = k + 2 := ⟨fuel - 2, by omega⟩
  by_cases hne : p = []
  · subst hne
    simp [matchLoop_star]
  · rw [matchLoop]
    simp only [List.length_append, List.length_singleton, gt_iff_lt,
      Nat.succ_pos, if_true, scanChunk_literal_star p hp hne, matchChunk_literal p hp]
    by_cases hpre : p.isPrefixOf name = true
    · simp [hpre, matchLoop_star]
    · simp [hpre]

/-- The matcher on a literal pattern. -/
theorem matchLoop_literal (p name : List UInt8) (hp : literalBytes p) (fuel : Nat)
    (hfuel : 2 ≤ fuel ∨ (p = [] ∧ 1 ≤ fuel)) :
    matchLoop fuel p name = (decide (name = p), none) := by
  by_cases hne : p = []
  · subst hne
    obtain ⟨fuel, rfl⟩ : ∃ k, fuel = k + 1 := ⟨fuel - 1, by omega⟩
    simp [matchLoop]
  · have h2 : 2 ≤ fuel := by
      rcases hfuel with h | ⟨h, _⟩
      · exact h
      · exact absurd h hne
    obtain ⟨fuel, rfl⟩ : ∃ k, fuel = k + 2 := ⟨fuel - 2, by omega⟩
    have hlen : 0 < p.length := List.length_pos.mpr hne
    rw [matchLoop]
    simp only [gt_iff_lt, hlen, if_true, scanChunk_literal p hp hne,
      matchChunk_literal p hp]
    by_cases hpre : p.isPrefixOf name = true
    · obtain ⟨t, rfl⟩ := List.isPrefixOf_iff_prefix.mp hpre
      cases t with
      | nil => simp [matchLoop]
      | cons d t => simp
    · have hneq : name ≠ p := by
        intro h; subst h; simp at hpre
      simp [hpre, hneq]

/-- C11: for a pattern `p` none of whose bytes is a glob metacharacter and a container
name `n` that holds no path separator, `containerNameMatchesPattern(n, p + "*")` over the
library matcher returns (true, nil) exactly when `n` starts with `p`, and never an error;
and `containerNameMatchesPattern(n, p)` returns (true, nil) exactly for the name equal to
`p` (Go strings are equal when their bytes are), and never an error. -/
theorem containerNameMatchesPattern_glob (p : String) (hp : literalBytes (goBytes p) = true) :
    (∀ n : String, filepath_Separator ∉ goBytes n →
      (containerNameMatchesPattern filepath_Match n (p ++ "*") = (true, none)
          ↔ strings_HasPrefix n p = true) ∧
        (containerNameMatchesPattern filepath_Match n (p ++ "*")).2 = none) ∧
    (∀ n : String,
      (containerNameMatchesPattern filepath_Match n p = (true, none)
          ↔ goBytes n = goBytes p) ∧
        (containerNameMatchesPattern filepath_Match n p).2 = none) := by
  constructor
  · intro n hn
    have h : containerNameMatchesPattern filepath_Match n (p ++ "*")
        = (strings_HasPrefix n p, none) := by
      simp only [containerNameMatchesPattern, filepath_Match, goBytes_append, goBytes_star]
      rw [matchLoop_literal_star (goBytes p) (goBytes n) hp _
        (by simp only [List.length_append, List.length_singleton]; omega)]
      rw [contains_drop_separator (goBytes n) (goBytes p).length hn]
      simp [strings_HasPrefix]
    rw [h]
    simp
  · intro n
    have h : containerNameMatchesPattern filepath_Match n p
        = (decide (goBytes n = goBytes p), none) := by
      simp only [containerNameMatchesPattern, filepath_Match]
      apply matchLoop_literal (goBytes p) (goBytes n) hp
      by_cases hne : goBytes p = []
      · exact Or.inr ⟨hne, by omega⟩
      · have := List.length_pos.mpr hne
        exact Or.inl (by omega)
    rw [h]
    simp

/-- The patterns of the tests, `data*` on `data1` and `other`, and `objectmatch*` on
`objectmatchone` and `objectnomatchone`, and the literal pattern `data` on `data`. -/
theorem containerNameMatchesPattern_glob_witness :
    literalBytes (goBytes "data") = true ∧ filepath_Separator ∉ goBytes "data1" ∧
      containerNameMatchesPattern filepath_Match "data1" ("data" ++ "*") = (true, none) ∧
      containerNameMatchesPattern filepath_Match "other" ("data" ++ "*") ≠ (true, none) ∧
      containerNameMatchesPattern filepath_Match "objectmatchone" ("objectmatch" ++ "*")
        = (true, none) ∧
      containerNameMatchesPattern filepath_Match "objectnomatchone" ("objectmatch" ++ "*")
        ≠ (true, none) ∧
      containerNameMatchesPattern filepath_Match "data" "data" = (true, none) :=
  ⟨by decide, by decide,
    ((containerNameMatchesPattern_glob "data" (by decide)).1 "data1" (by decide)).1.mpr
      (by decide),
    fun h => absurd
      (((containerNameMatchesPattern_glob "data" (by decide)).1 "other" (by decide)).1.mp h)
      (by decide),
    ((containerNameMatchesPattern_glob "objectmatch" (by decide)).1 "objectmatchone"
      (by decide)).1.mpr (by decide),
    fun h => absurd
      (((containerNameMatchesPattern_glob "objectmatch" (by decide)).1 "objectnomatchone"
        (by decide)).1.mp h)
      (by decide),
    ((containerNameMatchesPattern_glob "data" (by decide)).2 "data").1.mpr rfl⟩

/-! ## Object names -/

/-- The bytes of the path separator. -/
theorem goBytes_separator : goBytes common_AZCOPY_PATH_SEPARATOR_STRING = [47] := by decide

/-- A single byte begins a string exactly when it is its first byte. -/
theorem isPrefixOf_singleton (c : UInt8) (l : List UInt8) :
    [c].isPrefixOf l = decide (l.head? = some c) := by
  cases l with
  | nil => simp [List.isPrefixOf]
  | cons d l =>
    by_cases h : c = d
    · subst h; simp [List.isPrefixOf]
    · have h' : ¬ d = c := fun e => h e.symm
      simp [List.isPrefixOf, h, h']

/-- The search finds nothing in a string without the byte. -/
theorem lastIndexLoop_absent (c : UInt8) (s : List UInt8) (h : c ∉ s) (i : Nat) :
    lastIndexLoop s [c] i = -1 := by
  induction i with
  | zero =>
    have : s.head? ≠ some c := fun e => h (List.mem_of_mem_head? e)
    simp [lastIndexLoop, isPrefixOf_singleton, this]
  | succ i ih =>
    have : (s.drop (i + 1)).head? ≠ some c :=
      fun e => h (List.mem_of_mem_drop (List.mem_of_mem_head? e))
    rw [lastIndexLoop, isPrefixOf_singleton, decide_eq_false this]
    simpa using ih

/-- The search, started anywhere after the last instance of the byte, stops at it. -/
theorem lastIndexLoop_last (c : UInt8) (pre name : List UInt8) (h : c ∉ name) (k : Nat) :
    lastIndexLoop (pre ++ c :: name) [c] (pre.length + k) = (pre.length : Int) := by
  induction k with
  | zero =>
    cases hp : pre.length with
    | zero =>
      have : pre = [] := List.length_eq_zero.mp hp
      subst this
      simp [lastIndexLoop, isPrefixOf_singleton]
    | succ n =>
      have hd : (pre ++ c :: name).drop (n + 1) = c :: name := by
        rw [← hp]; simp
      simp [lastIndexLoop, isPrefixOf_singleton, hd]
  | succ k ih =>
    have hd : (pre ++ c :: name).drop (pre.length + (k + 1)) = name.drop k := by
      rw [List.drop_append]
      simp
    have : (name.drop k).head? ≠ some c :=
      fun e => h (List.mem_of_mem_drop (List.mem_of_mem_head? e))
    rw [← Nat.add_assoc, lastIndexLoop, Nat.add_assoc, hd, isPrefixOf_singleton,
      decide_eq_false this]
    simpa using ih

/-- Go `strings.LastIndex` is -1 when the byte is absent. -/
theorem strings_LastIndex_absent (c : UInt8) (s : List UInt8) (h : c ∉ s) :
    strings_LastIndex s [c] = -1 := by
  unfold strings_LastIndex
  split
  · rfl
  · exact lastIndexLoop_absent c s h _

/-- Go `strings.LastIndex` is the index of the instance of the byte that no other follows. -/
theorem strings_LastIndex_last (c : UInt8) (pre name : List UInt8) (h : c ∉ name) :
    strings_LastIndex (pre ++ c :: name) [c] = (pre.length : Int) := by
  unfold strings_LastIndex
  have hl : ¬ (pre ++ c :: name).length < [c].length := by simp
  rw [if_neg hl]
  have : (pre ++ c :: name).length - [c].length = pre.length + name.length := by
    simp
  rw [this]
  exact lastIndexLoop_last c pre name h _

/-- What `getObjectNameOnly` returns on every path: the path itself when it holds no
separator; when its last separator stands between `pre` and `name`, the part `name` after
it if that separator is neither the first nor the last byte of the path, and the path
itself if it is the last byte or the first. -/
theorem getObjectNameOnly_outcomes (fullPath : List UInt8) :
    (47 ∉ fullPath → getObjectNameOnly fullPath = fullPath) ∧
    (∀ pre name : List UInt8, fullPath = pre ++ 47 :: name → 47 ∉ name →
      getObjectNameOnly fullPath = if pre ≠ [] ∧ name ≠ [] then name else fullPath) := by
  constructor
  · intro h
    simp [getObjectNameOnly, goBytes_separator, strings_LastIndex_absent 47 fullPath h]
  · intro pre name hf hn
    subst hf
    simp only [getObjectNameOnly, goBytes_separator, strings_LastIndex_last 47 pre name hn]
    by_cases hp : pre = []
    · subst hp; simp
    · by_cases hne : name = []
      · subst hne; simp
      · have h1 : 0 < pre.length := List.length_pos.mpr hp
        have h2 : 0 < name.length := List.length_pos.mpr hne
        have hc : ((pre.length : Int) > 0 ∧
            (pre.length : Int) ≠ ((pre ++ 47 :: name).length : Int) - 1) := by
          constructor
          · omega
          · simp only [List.length_append, List.length_cons]; push_cast; omega
        rw [if_pos hc, if_pos ⟨hp, hne⟩]
        have : ((pre.length : Int) + 1).toNat = pre.length + 1 := by omega
        rw [this]
        simp

/-- C21, the code at the failing input: the path `/f.pdf` holds a separator, its only one,
which is not its last character, and the part after it, `f.pdf`, holds none; yet
`getObjectNameOnly` returns the path unchanged, because the test `lastPathSeparator > 0`
takes the index 0 for no separator. With the separator further in, `d/f.pdf`, and on the
full path of the comment in `storedObject`, it returns the name `f.pdf`. -/
theorem getObjectNameOnly_leading_separator :
    goBytes "/f.pdf" = goBytes common_AZCOPY_PATH_SEPARATOR_STRING ++ goBytes "f.pdf" ∧
    (47 : UInt8) ∉ goBytes "f.pdf" ∧
    strings_LastIndex (goBytes "/f.pdf") (goBytes common_AZCOPY_PATH_SEPARATOR_STRING) = 0 ∧
    (0 : Int) ≠ ((goBytes "/f.pdf").length : Int) - 1 ∧
    getObjectNameOnly (goBytes "/f.pdf") = goBytes "/f.pdf" ∧
    getObjectNameOnly (goBytes "/f.pdf") ≠ goBytes "f.pdf" ∧
    getObjectNameOnly (goBytes "d/f.pdf") = goBytes "f.pdf" ∧
    getObjectNameOnly (goBytes "/var/a/b/c/d/e/f.pdf") = goBytes "f.pdf" := by
  decide

end AzCopy
